import Mathlib

/-!
Verification of the parsing and reference-resolution core of a terminal
Bible-study client ("sword-tui").  The Python source is shallowly embedded:
strings become `List Char`, each fixed regular expression becomes a
hand-rolled deterministic scanner implementing the same language with the
same (leftmost, greedy/lazy) match policy, stateful scan loops become
recursive functions, and operations that can raise in Python (`int(...)`,
`s[0]`) are threaded through `Except`.
-/

set_option maxRecDepth 100000
set_option maxHeartbeats 4000000

namespace SwordTui

/-- Characters of a string literal; all embedded text is `List Char`. -/
def lc (s : String) : List Char := s.data

abbrev Str := List Char

/-- Python whitespace (`str.strip`, `re \s`): ASCII whitespace, the
C1 separator block 0x1c-0x1f, and the common Unicode space characters. -/
def isSpaceC (c : Char) : Bool :=
  let n := c.toNat
  (9 ≤ n && n ≤ 13) || n = 32 || (0x1c ≤ n && n ≤ 0x1f) ||
  n = 0x85 || n = 0xa0 || n = 0x1680 || (0x2000 ≤ n && n ≤ 0x200a) ||
  n = 0x2028 || n = 0x2029 || n = 0x202f || n = 0x205f || n = 0x3000

/-- Line boundaries recognized by Python `str.splitlines`. -/
def isLineBreakC (c : Char) : Bool :=
  let n := c.toNat
  n = 10 || n = 13 || n = 11 || n = 12 || (0x1c ≤ n && n ≤ 0x1e) ||
  n = 0x85 || n = 0x2028 || n = 0x2029

/-- ASCII letter, the regex class `[A-Za-z]`. -/
def isAsciiLetter (c : Char) : Bool :=
  let n := c.toNat
  (65 ≤ n && n ≤ 90) || (97 ≤ n && n ≤ 122)

/-- ASCII digit, the regex class `\d` on the inputs at hand. -/
def isDigitC (c : Char) : Bool :=
  let n := c.toNat
  48 ≤ n && n ≤ 57

/-- The regex class `[\w\s]` (word characters modelled as ASCII). -/
def isWordOrSpace (c : Char) : Bool :=
  isAsciiLetter c || isDigitC c || c = '_' || isSpaceC c

/-- Python `str.lower` on the characters occurring in the canon table:
ASCII letters plus the Latin-1 uppercase range. -/
def pyLowerChar (c : Char) : Char :=
  let n := c.toNat
  if 65 ≤ n && n ≤ 90 then Char.ofNat (n + 32)
  else if 0xC0 ≤ n && n ≤ 0xDE && n ≠ 0xD7 then Char.ofNat (n + 32)
  else c

def pyLower (s : Str) : Str := s.map pyLowerChar

theorem charToNatInj {a b : Char} (h : a.toNat = b.toNat) : a = b := by
  have hv : a.val = b.val := by
    have h2 : a.val.toBitVec = b.val.toBitVec := BitVec.toNat_injective h
    exact congrArg UInt32.mk h2
  exact Char.eq_of_val_eq hv

/-- Fast character equality (code points compared as `Nat`). -/
def beqC (a b : Char) : Bool := a.toNat == b.toNat

theorem beqC_iff {a b : Char} : beqC a b = true ↔ a = b := by
  simp only [beqC, Nat.beq_eq_true_eq]
  constructor
  · exact charToNatInj
  · intro h; rw [h]

/-- Fast string equality (Python `==` on `str`). -/
def beqStr : Str → Str → Bool
  | [], [] => true
  | a :: as, b :: bs => beqC a b && beqStr as bs
  | _, _ => false

theorem beqStr_iff : ∀ {a b : Str}, beqStr a b = true ↔ a = b := by
  intro a
  induction a with
  | nil => intro b; cases b <;> simp [beqStr]
  | cons c cs ih =>
    intro b
    cases b with
    | nil => simp [beqStr]
    | cons d ds =>
      simp [beqStr, beqC_iff, ih]

/-- Drop trailing whitespace (structural helper for `strip`). -/
def dropTrailingWS : Str → Str
  | [] => []
  | c :: cs =>
    let r := dropTrailingWS cs
    if r.isEmpty && isSpaceC c then [] else c :: r

/-- Python `str.strip()`. -/
def pyStrip (s : Str) : Str := dropTrailingWS (s.dropWhile isSpaceC)

/-- One pass of `re.sub(r"\s+", " ", s)`: the flag records whether the
previous character was part of a whitespace run already emitted as `' '`. -/
def collapseAux : Bool → Str → Str
  | _, [] => []
  | prevWs, c :: cs =>
    if isSpaceC c then
      if prevWs then collapseAux true cs else ' ' :: collapseAux true cs
    else c :: collapseAux false cs

/-- `re.sub(r"\s+", " ", s)`: collapse every whitespace run to one space. -/
def collapseWS (s : Str) : Str := collapseAux false s

/-- Python `" ".join(parts)`. -/
def joinSpace : List Str → Str
  | [] => []
  | [p] => p
  | p :: ps => p ++ ' ' :: joinSpace ps

/-- Python `"\n".join(lines)`. -/
def joinNL : List Str → Str
  | [] => []
  | [l] => l
  | l :: ls => l ++ '\n' :: joinNL ls

/-- Python `str.split()` (split on whitespace runs, no empty pieces). -/
def splitWSAux : Str → Str → List Str
  | cur, [] => if cur.isEmpty then [] else [cur.reverse]
  | cur, c :: cs =>
    if isSpaceC c then
      if cur.isEmpty then splitWSAux [] cs else cur.reverse :: splitWSAux [] cs
    else splitWSAux (c :: cur) cs

def splitWS (s : Str) : List Str := splitWSAux [] s

/-- Prepend a character to the first segment of a segment list. -/
def consSeg (c : Char) : List Str → List Str
  | [] => [[c]]
  | l :: ls => (c :: l) :: ls

/-- Core of Python `str.splitlines`: always keeps a (possibly empty)
final segment, so that the wrapper can drop it exactly when the text
ends with a line break.  The flag records that the previous character
was a `\r`, so that the `\n` of a CRLF pair opens no extra line. -/
def splitlinesSM : Bool → Str → List Str
  | _, [] => [[]]
  | prevCR, c :: cs =>
    if c = '\n' then
      if prevCR then splitlinesSM false cs
      else [] :: splitlinesSM false cs
    else if c = '\r' then [] :: splitlinesSM true cs
    else if isLineBreakC c then [] :: splitlinesSM false cs
    else consSeg c (splitlinesSM false cs)

def splitlinesCore (s : Str) : List Str := splitlinesSM false s

/-- Drop the final segment when it is empty (text ending in a line break
produces no extra line). -/
def stripLastEmpty : List Str → List Str
  | [] => []
  | [l] => if l.isEmpty then [] else [l]
  | l :: ls => l :: stripLastEmpty ls

/-- Python `str.splitlines()`. -/
def pySplitlines (s : Str) : List Str :=
  stripLastEmpty (splitlinesCore s)

/-- Scanner for `re.sub(r"<[^>]+>", rep, s)`: when `buf` is `some tagBody`
the scan is inside a candidate tag, holding the characters read since the
opening `<`.  A `>` with a non-empty body completes a match (the regex
needs at least one character between the brackets); end of input emits an
unterminated `<` and its body literally.  `[^>]+` may itself contain `<`,
so a nested `<` is just part of the body, exactly as in the regex. -/
def tagSubSM (rep : Str) : Option Str → Str → Str
  | none, [] => []
  | none, c :: cs => if c = '<' then tagSubSM rep (some []) cs else c :: tagSubSM rep none cs
  | some buf, [] => '<' :: buf
  | some buf, c :: cs =>
    if c = '>' then
      if buf.isEmpty then '<' :: '>' :: tagSubSM rep none cs
      else rep ++ tagSubSM rep none cs
    else tagSubSM rep (some (buf ++ [c])) cs

/-- Leftmost-match substitution for the regex `<[^>]+>`, replacing each
match by `rep`. -/
def tagSubWith (rep : Str) (s : Str) : Str := tagSubSM rep none s

/-- `re.sub(r"<[^>]+>", " ", s)` as used by the output normalizer. -/
def htmlTagSubSpace (s : Str) : Str := tagSubWith [' '] s

/-- `re.sub(r"<[^>]+>", "", s)` as used by the commentary cleaners. -/
def htmlTagSubEmpty (s : Str) : Str := tagSubWith [] s

/-- Named HTML entities handled by the model of `html.unescape` (the
common core of the html5 table; the stdlib knows more names, none of
which occur in the texts reasoned about here). -/
def namedEntities : List (Str × Char) :=
  [(lc "amp", '&'), (lc "lt", '<'), (lc "gt", '>'), (lc "quot", '"'),
   (lc "apos", Char.ofNat 39), (lc "nbsp", Char.ofNat 0xa0),
   (lc "mdash", Char.ofNat 0x2014), (lc "ndash", Char.ofNat 0x2013),
   (lc "hellip", Char.ofNat 0x2026), (lc "copy", Char.ofNat 0xa9),
   (lc "sect", Char.ofNat 0xa7), (lc "para", Char.ofNat 0xb6)]

/-- Value of a decimal digit character. -/
def digitVal (c : Char) : Nat := c.toNat - 48

/-- Fold a digit list to the number it denotes. -/
def digitsToNat (ds : Str) : Nat := ds.foldl (fun n c => 10 * n + digitVal c) 0

/-- Hex digit test/value (for `&#x...;` character references). -/
def isHexDigitC (c : Char) : Bool :=
  isDigitC c || ('a' ≤ c && c ≤ 'f') || ('A' ≤ c && c ≤ 'F')

def hexVal (c : Char) : Nat :=
  if isDigitC c then c.toNat - 48
  else if 'a' ≤ c && c ≤ 'f' then c.toNat - 87
  else c.toNat - 55

def hexToNat (ds : Str) : Nat := ds.foldl (fun n c => 16 * n + hexVal c) 0

/-- Character for a numeric reference; invalid code points (surrogates,
out of range, NUL) map to U+FFFD like the stdlib does. -/
def charRefChar (n : Nat) : Char :=
  if n = 0 || (0xD800 ≤ n && n ≤ 0xDFFF) || 0x10FFFF < n then Char.ofNat 0xFFFD
  else Char.ofNat n

/-- Structural take/drop-while pair: `(matching head run, remainder)`. -/
def spanP (p : Char → Bool) : Str → (Str × Str)
  | [] => ([], [])
  | c :: cs =>
    if p c then
      let r := spanP p cs
      (c :: r.1, r.2)
    else ([], c :: cs)

theorem spanP_snd_length (p : Char → Bool) :
    ∀ s : Str, (spanP p s).2.length ≤ s.length := by
  intro s
  induction s with
  | nil => simp [spanP]
  | cons c cs ih =>
    simp only [spanP]
    split
    · simpa using Nat.le_succ_of_le ih
    · simp

/-- Drop a single leading semicolon (end of a character reference). -/
def dropSemi : Str → Str
  | ';' :: r => r
  | r => r

theorem dropSemi_length : ∀ l : Str, (dropSemi l).length ≤ l.length := by
  intro l
  match l with
  | [] => simp [dropSemi]
  | c :: r =>
    by_cases h : c = ';'
    · subst h; simp [dropSemi]
    · have : dropSemi (c :: r) = c :: r := by
        unfold dropSemi
        split
        · simp_all
        · rfl
      simp [this]

/-- Decompose the tail of a `&#...` numeric character reference into
(hex flag, digit run, remaining text after the optional semicolon). -/
def numRefSplit (rest : Str) : Bool × Str × Str :=
  let hexMode : Bool := match rest with
    | x :: _ => x = 'x' || x = 'X'
    | [] => false
  let body := if hexMode then rest.tail else rest
  let res := spanP (fun d => if hexMode then isHexDigitC d else isDigitC d) body
  (hexMode, res.1, dropSemi res.2)

theorem numRefSplit_length (rest : Str) :
    (numRefSplit rest).2.2.length ≤ rest.length := by
  unfold numRefSplit
  simp only []
  refine le_trans (dropSemi_length _) (le_trans (spanP_snd_length _ _) ?_)
  split
  · cases rest <;> simp
  · exact le_refl _

/-- Model of Python `html.unescape`, one fueled scan step per input
character: numeric decimal/hex character references (semicolon optional)
and the named entities above (semicolon required); anything else is left
as literal text.  The fuel is the input length, which every step
strictly decreases, so the zero-fuel branch is unreachable. -/
def unescGo : Nat → Str → Str
  | 0, rest => rest
  | _ + 1, [] => []
  | fuel + 1, c :: cs =>
    if c = '&' then
      match cs with
      | '#' :: rest =>
        let hexMode := (numRefSplit rest).1
        let digits := (numRefSplit rest).2.1
        if digits.isEmpty then
          '&' :: unescGo fuel cs
        else
          let n := if hexMode then hexToNat digits else digitsToNat digits
          charRefChar n :: unescGo fuel (numRefSplit rest).2.2
      | _ =>
        let name := (spanP isAsciiLetter cs).1
        match (spanP isAsciiLetter cs).2 with
        | ';' :: after =>
          match namedEntities.find? (fun p => beqStr p.1 name) with
          | some p => p.2 :: unescGo fuel after
          | none => '&' :: unescGo fuel cs
        | _ => '&' :: unescGo fuel cs
    else c :: unescGo fuel cs

def pyUnescape (s : Str) : Str := unescGo s.length s

/-- Python-level error: the exception an operation would raise. -/
inductive PyErr where
  | valueError
  | indexError
  deriving Repr, DecidableEq

instance {e a : Type} [DecidableEq e] [DecidableEq a] : DecidableEq (Except e a) :=
  fun x y =>
    match x, y with
    | .ok u, .ok v =>
      if h : u = v then isTrue (by rw [h]) else isFalse (by simp [h])
    | .error u, .error v =>
      if h : u = v then isTrue (by rw [h]) else isFalse (by simp [h])
    | .ok _, .error _ => isFalse (by simp)
    | .error _, .ok _ => isFalse (by simp)

/-- Python `int(s)`: optional surrounding whitespace and sign, then at
least one digit; anything else raises `ValueError`. -/
def pyInt (s : Str) : Except PyErr Int :=
  let t := pyStrip s
  let neg : Bool := t.head? = some '-'
  let digits := if t.head? = some '-' || t.head? = some '+' then t.tail else t
  if digits.isEmpty || !digits.all isDigitC then .error .valueError
  else if neg then .ok (-(digitsToNat digits : Int))
  else .ok (digitsToNat digits : Int)

theorem dropTrailingWS_of_no_ws (s : Str) (h : ∀ c ∈ s, isSpaceC c = false) :
    dropTrailingWS s = s := by
  induction s with
  | nil => rfl
  | cons c cs ih =>
    have hc := h c (by simp)
    have ih2 := ih (fun d hd => h d (by simp [hd]))
    simp [dropTrailingWS, ih2, hc]

theorem pyStrip_of_no_ws (s : Str) (h : ∀ c ∈ s, isSpaceC c = false) :
    pyStrip s = s := by
  have h1 : s.dropWhile isSpaceC = s := by
    cases s with
    | nil => rfl
    | cons c cs =>
      rw [List.dropWhile_cons]
      simp [h c (by simp)]
  rw [pyStrip, h1, dropTrailingWS_of_no_ws s h]

theorem digit_not_space {c : Char} (h : isDigitC c = true) : isSpaceC c = false := by
  simp [isDigitC] at h
  simp [isSpaceC]
  omega

/-- `pyInt` on a plain digit run is the number it denotes. -/
theorem pyInt_digits (s : Str) (hne : s ≠ []) (hd : s.all isDigitC = true) :
    pyInt s = .ok (digitsToNat s : Int) := by
  have hs : pyStrip s = s :=
    pyStrip_of_no_ws s (fun c hc => digit_not_space (List.all_eq_true.mp hd c hc))
  cases s with
  | nil => exact absurd rfl hne
  | cons c cs =>
    have hcdig : isDigitC c = true := List.all_eq_true.mp hd c (by simp)
    have hcne1 : c ≠ '-' := by
      intro h; subst h; simp [isDigitC] at hcdig
    have hcne2 : c ≠ '+' := by
      intro h; subst h; simp [isDigitC] at hcdig
    unfold pyInt
    rw [hs]
    simp [hcne1, hcne2, hd]

theorem charOfNat_toNat {n : Nat} (h : n < 0xD800) : (Char.ofNat n).toNat = n := by
  have hv : Nat.isValidChar n := Or.inl h
  unfold Char.ofNat
  rw [dif_pos hv]
  rfl

/-- Decimal digit character for a value less than ten. -/
def digitChar10 (n : Nat) : Char := Char.ofNat (48 + n)

/-- Decimal representation of a natural number (Python `str(n)` /
f-string formatting of a non-negative int), fueled by the number itself:
the quotient chain `n, n/10, ...` has length at most `n+1`. -/
def natToCharsAux : Nat → Nat → Str
  | 0, _ => []
  | fuel + 1, n =>
    if n < 10 then [digitChar10 n]
    else natToCharsAux fuel (n / 10) ++ [digitChar10 (n % 10)]

def natToChars (n : Nat) : Str := natToCharsAux (n + 1) n

theorem natToCharsAux_ne_nil {fuel n : Nat} (h : n < fuel) :
    natToCharsAux fuel n ≠ [] := by
  cases fuel with
  | zero => omega
  | succ f =>
    rw [natToCharsAux]
    split <;> simp

theorem natToChars_ne_nil (n : Nat) : natToChars n ≠ [] :=
  natToCharsAux_ne_nil (by omega)

theorem natToCharsAux_all_digits :
    ∀ (n fuel : Nat), n < fuel → (natToCharsAux fuel n).all isDigitC = true := by
  intro n
  induction n using Nat.strong_induction_on with
  | _ n ih =>
    intro fuel hfuel
    cases fuel with
    | zero => omega
    | succ f =>
      rw [natToCharsAux]
      split
      · rename_i h
        simp [digitChar10, isDigitC]
        constructor
        · show (48 : Nat) ≤ (Char.ofNat (48 + n)).toNat
          rw [charOfNat_toNat (by omega)]
          omega
        · show (Char.ofNat (48 + n)).toNat ≤ 57
          rw [charOfNat_toNat (by omega)]
          omega
      · rename_i h
        have h10 : 10 ≤ n := Nat.le_of_not_lt h
        rw [List.all_append, Bool.and_eq_true]
        constructor
        · exact ih (n / 10) (Nat.div_lt_self (by omega) (by omega)) f
            (by have := Nat.div_lt_self (show 0 < n by omega) (show 1 < 10 by omega); omega)
        · simp [digitChar10, isDigitC]
          have hlt : n % 10 < 10 := Nat.mod_lt _ (by omega)
          constructor
          · show (48 : Nat) ≤ (Char.ofNat (48 + n % 10)).toNat
            rw [charOfNat_toNat (by omega)]
            omega
          · show (Char.ofNat (48 + n % 10)).toNat ≤ 57
            rw [charOfNat_toNat (by omega)]
            omega

theorem natToChars_all_digits (n : Nat) : (natToChars n).all isDigitC = true :=
  natToCharsAux_all_digits n (n + 1) (by omega)

theorem digitsToNat_append (a b : Str) :
    digitsToNat (a ++ b) = b.foldl (fun n c => 10 * n + digitVal c) (digitsToNat a) := by
  simp [digitsToNat, List.foldl_append]

theorem digitsToNat_natToCharsAux :
    ∀ (n fuel : Nat), n < fuel → digitsToNat (natToCharsAux fuel n) = n := by
  intro n
  induction n using Nat.strong_induction_on with
  | _ n ih =>
    intro fuel hfuel
    cases fuel with
    | zero => omega
    | succ f =>
      rw [natToCharsAux]
      split
      · rename_i h
        simp [digitsToNat, digitVal, digitChar10]
        rw [charOfNat_toNat (by omega)]
        omega
      · rename_i h
        have h10 : 10 ≤ n := Nat.le_of_not_lt h
        rw [digitsToNat_append]
        rw [show digitsToNat (natToCharsAux f (n / 10)) = n / 10 from
          ih (n / 10) (Nat.div_lt_self (by omega) (by omega)) f
            (by have := Nat.div_lt_self (show 0 < n by omega) (show 1 < 10 by omega); omega)]
        simp [digitVal, digitChar10]
        rw [charOfNat_toNat (by have := Nat.mod_lt n (show 0 < 10 by omega); omega)]
        omega

theorem digitsToNat_natToChars (n : Nat) : digitsToNat (natToChars n) = n :=
  digitsToNat_natToCharsAux n (n + 1) (by omega)

/-- One book of the canon (`CanonBook` in the data model). -/
structure CanonBook where
  name : Str
  abbr : Str
  aliases : List Str
  chapters : Nat
  deriving Repr, DecidableEq

/-- The 66-book canon table (`_CANON_TABLE`). -/
def canonTable : List CanonBook := [
  ⟨lc "Genesis", lc "Gen", [lc "gen", lc "ge", lc "gn", lc "genesis", lc "1mo", lc "1mos"], 50⟩,
  ⟨lc "Exodus", lc "Ex", [lc "exo", lc "ex", lc "exodus", lc "2mo", lc "2mos"], 40⟩,
  ⟨lc "Leviticus", lc "Lev", [lc "lev", lc "le", lc "leviticus", lc "3mo", lc "3mos"], 27⟩,
  ⟨lc "Numeri", lc "Num", [lc "num", lc "nu", lc "numeri", lc "numbers", lc "4mo", lc "4mos"], 36⟩,
  ⟨lc "Deuteronomium", lc "Deut", [lc "deut", lc "de", lc "dt", lc "deuteronomium", lc "deuteronomy", lc "5mo", lc "5mos"], 34⟩,
  ⟨lc "Jozua", lc "Joz", [lc "joz", lc "jos", lc "joshua", lc "jozua"], 24⟩,
  ⟨lc "Richteren", lc "Richt", [lc "richt", lc "ri", lc "richteren", lc "judges", lc "judg"], 21⟩,
  ⟨lc "Ruth", lc "Ruth", [lc "ruth", lc "ru", lc "rth"], 4⟩,
  ⟨lc "1 Samuël", lc "1Sam", [lc "1sam", lc "1sa", lc "1samuel", lc "1 samuel"], 31⟩,
  ⟨lc "2 Samuël", lc "2Sam", [lc "2sam", lc "2sa", lc "2samuel", lc "2 samuel"], 24⟩,
  ⟨lc "1 Koningen", lc "1Kon", [lc "1kon", lc "1ki", lc "1kings", lc "1 koningen", lc "1koningen"], 22⟩,
  ⟨lc "2 Koningen", lc "2Kon", [lc "2kon", lc "2ki", lc "2kings", lc "2 koningen", lc "2koningen"], 25⟩,
  ⟨lc "1 Kronieken", lc "1Kron", [lc "1kron", lc "1chr", lc "1chronicles", lc "1 kronieken", lc "1kronieken"], 29⟩,
  ⟨lc "2 Kronieken", lc "2Kron", [lc "2kron", lc "2chr", lc "2chronicles", lc "2 kronieken", lc "2kronieken"], 36⟩,
  ⟨lc "Ezra", lc "Ezra", [lc "ezra", lc "ezr"], 10⟩,
  ⟨lc "Nehemia", lc "Neh", [lc "neh", lc "ne", lc "nehemia", lc "nehemiah"], 13⟩,
  ⟨lc "Esther", lc "Est", [lc "est", lc "esther"], 10⟩,
  ⟨lc "Job", lc "Job", [lc "job", lc "jb"], 42⟩,
  ⟨lc "Psalmen", lc "Ps", [lc "ps", lc "psa", lc "psalm", lc "psalmen", lc "psalms"], 150⟩,
  ⟨lc "Spreuken", lc "Spr", [lc "spr", lc "pr", lc "prov", lc "spreuken", lc "proverbs"], 31⟩,
  ⟨lc "Prediker", lc "Pred", [lc "pred", lc "ec", lc "ecc", lc "prediker", lc "ecclesiastes"], 12⟩,
  ⟨lc "Hooglied", lc "Hoogl", [lc "hoogl", lc "hl", lc "song", lc "hooglied", lc "songofsolomon", lc "canticles"], 8⟩,
  ⟨lc "Jesaja", lc "Jes", [lc "jes", lc "isa", lc "jesaja", lc "isaiah"], 66⟩,
  ⟨lc "Jeremia", lc "Jer", [lc "jer", lc "je", lc "jeremia", lc "jeremiah"], 52⟩,
  ⟨lc "Klaagliederen", lc "Klaagl", [lc "klaagl", lc "lam", lc "klaagliederen", lc "lamentations"], 5⟩,
  ⟨lc "Ezechiël", lc "Ez", [lc "ez", lc "ezek", lc "ezechiel", lc "ezekiel"], 48⟩,
  ⟨lc "Daniël", lc "Dan", [lc "dan", lc "da", lc "daniel"], 12⟩,
  ⟨lc "Hosea", lc "Hos", [lc "hos", lc "ho", lc "hosea"], 14⟩,
  ⟨lc "Joël", lc "Joël", [lc "joel", lc "joe", lc "jl"], 3⟩,
  ⟨lc "Amos", lc "Am", [lc "am", lc "amos"], 9⟩,
  ⟨lc "Obadja", lc "Ob", [lc "ob", lc "obad", lc "obadja", lc "obadiah"], 1⟩,
  ⟨lc "Jona", lc "Jona", [lc "jona", lc "jon", lc "jonah"], 4⟩,
  ⟨lc "Micha", lc "Mi", [lc "mi", lc "mic", lc "micha", lc "micah"], 7⟩,
  ⟨lc "Nahum", lc "Nah", [lc "nah", lc "na", lc "nahum"], 3⟩,
  ⟨lc "Habakuk", lc "Hab", [lc "hab", lc "habakuk", lc "habakkuk"], 3⟩,
  ⟨lc "Zefanja", lc "Zef", [lc "zef", lc "zeph", lc "zefanja", lc "zephaniah"], 3⟩,
  ⟨lc "Haggaï", lc "Hag", [lc "hag", lc "haggai"], 2⟩,
  ⟨lc "Zacharia", lc "Zach", [lc "zach", lc "zec", lc "zacharia", lc "zechariah"], 14⟩,
  ⟨lc "Maleachi", lc "Mal", [lc "mal", lc "maleachi", lc "malachi"], 4⟩,
  ⟨lc "Mattheüs", lc "Matt", [lc "matt", lc "mt", lc "mattheus", lc "matthew"], 28⟩,
  ⟨lc "Markus", lc "Mark", [lc "mark", lc "mk", lc "marcus", lc "markus"], 16⟩,
  ⟨lc "Lukas", lc "Luk", [lc "luk", lc "lk", lc "lukas", lc "luke"], 24⟩,
  ⟨lc "Johannes", lc "Joh", [lc "joh", lc "jn", lc "johannes", lc "john"], 21⟩,
  ⟨lc "Handelingen", lc "Hand", [lc "hand", lc "acts", lc "handelingen", lc "actsoftheapostles"], 28⟩,
  ⟨lc "Romeinen", lc "Rom", [lc "rom", lc "ro", lc "romeinen", lc "romans"], 16⟩,
  ⟨lc "1 Korinthe", lc "1Kor", [lc "1kor", lc "1co", lc "1cor", lc "1 korinthe", lc "1korinthe", lc "1corinthians"], 16⟩,
  ⟨lc "2 Korinthe", lc "2Kor", [lc "2kor", lc "2co", lc "2cor", lc "2 korinthe", lc "2korinthe", lc "2corinthians"], 13⟩,
  ⟨lc "Galaten", lc "Gal", [lc "gal", lc "ga", lc "galaten", lc "galatians"], 6⟩,
  ⟨lc "Efeze", lc "Ef", [lc "ef", lc "eph", lc "efeze", lc "ephesians"], 6⟩,
  ⟨lc "Filippenzen", lc "Fil", [lc "fil", lc "php", lc "filippenzen", lc "philippians"], 4⟩,
  ⟨lc "Kolossenzen", lc "Kol", [lc "kol", lc "col", lc "kolossenzen", lc "colossians"], 4⟩,
  ⟨lc "1 Thessalonicenzen", lc "1Thess", [lc "1thess", lc "1th", lc "1 thessalonicenzen", lc "1thessalonicenzen", lc "1thessalonians"], 5⟩,
  ⟨lc "2 Thessalonicenzen", lc "2Thess", [lc "2thess", lc "2th", lc "2 thessalonicenzen", lc "2thessalonicenzen", lc "2thessalonians"], 3⟩,
  ⟨lc "1 Timotheüs", lc "1Tim", [lc "1tim", lc "1ti", lc "1 timotheus", lc "1timotheus", lc "1timothy"], 6⟩,
  ⟨lc "2 Timotheüs", lc "2Tim", [lc "2tim", lc "2ti", lc "2 timotheus", lc "2timotheus", lc "2timothy"], 4⟩,
  ⟨lc "Titus", lc "Tit", [lc "tit", lc "titus"], 3⟩,
  ⟨lc "Filemon", lc "Filem", [lc "filem", lc "phm", lc "filemon", lc "philemon"], 1⟩,
  ⟨lc "Hebreeën", lc "Heb", [lc "heb", lc "hebreeen", lc "hebrews"], 13⟩,
  ⟨lc "Jakobus", lc "Jak", [lc "jak", lc "jas", lc "jakobus", lc "james"], 5⟩,
  ⟨lc "1 Petrus", lc "1Pet", [lc "1pet", lc "1pe", lc "1 petrus", lc "1petrus", lc "1peter"], 5⟩,
  ⟨lc "2 Petrus", lc "2Pet", [lc "2pet", lc "2pe", lc "2 petrus", lc "2petrus", lc "2peter"], 3⟩,
  ⟨lc "1 Johannes", lc "1Joh", [lc "1joh", lc "1jn", lc "1 johannes", lc "1johannes", lc "1john"], 5⟩,
  ⟨lc "2 Johannes", lc "2Joh", [lc "2joh", lc "2jn", lc "2 johannes", lc "2johannes", lc "2john"], 1⟩,
  ⟨lc "3 Johannes", lc "3Joh", [lc "3joh", lc "3jn", lc "3 johannes", lc "3johannes", lc "3john"], 1⟩,
  ⟨lc "Judas", lc "Jud", [lc "jud", lc "jude", lc "judas"], 1⟩,
  ⟨lc "Openbaring", lc "Openb", [lc "openb", lc "rev", lc "openbaring", lc "revelation", lc "apocalypse"], 22⟩
]

/-- `BOOK_ORDER`: canonical names in canon order. -/
def bookOrder : List Str := canonTable.map (fun b => b.name)

/-- `book_index`: canon-order position, `-1` when absent. -/
def book_index (name : Str) : Int :=
  match bookOrder.findIdx? (fun n => beqStr n name) with
  | some i => (i : Int)
  | none => -1

/-- Insertion-ordered dictionary update (Python `dict` assignment). -/
def dictInsert (m : List (Str × Str)) (k v : Str) : List (Str × Str) :=
  if m.any (fun p => beqStr p.1 k) then
    m.map (fun p => if beqStr p.1 k then (k, v) else p)
  else m ++ [(k, v)]

/-- Python `dict.get`: keys are unique after `dictInsert`, so the first
match is the binding. -/
def dictGet (m : List (Str × Str)) (k : Str) : Option Str :=
  (m.find? (fun p => beqStr p.1 k)).map (fun p => p.2)

/-- `_ALIAS_MAP`: lowercased names, abbreviations and aliases, built in
table order with dict-overwrite semantics. -/
def aliasMap : List (Str × Str) :=
  canonTable.foldl (fun m b =>
    let m1 := dictInsert m (pyLower b.name) b.name
    let m2 := dictInsert m1 (pyLower b.abbr) b.name
    b.aliases.foldl (fun acc a => dictInsert acc (pyLower a) b.name) m2) []

/-- `DIATHEKE_TOKENS`: canonical name to engine lookup token. -/
def diathekeTokens : List (Str × Str) := [
  (lc "Genesis", lc "Genesis"),
  (lc "Exodus", lc "Exodus"),
  (lc "Leviticus", lc "Leviticus"),
  (lc "Numeri", lc "Numbers"),
  (lc "Deuteronomium", lc "Deuteronomy"),
  (lc "Jozua", lc "Joshua"),
  (lc "Richteren", lc "Judges"),
  (lc "Ruth", lc "Ruth"),
  (lc "1 Samuël", lc "1Samuel"),
  (lc "2 Samuël", lc "2Samuel"),
  (lc "1 Koningen", lc "1Kings"),
  (lc "2 Koningen", lc "2Kings"),
  (lc "1 Kronieken", lc "1Chronicles"),
  (lc "2 Kronieken", lc "2Chronicles"),
  (lc "Ezra", lc "Ezra"),
  (lc "Nehemia", lc "Nehemiah"),
  (lc "Esther", lc "Esther"),
  (lc "Job", lc "Job"),
  (lc "Psalmen", lc "Psalms"),
  (lc "Spreuken", lc "Proverbs"),
  (lc "Prediker", lc "Ecclesiastes"),
  (lc "Hooglied", lc "Song of Solomon"),
  (lc "Jesaja", lc "Isaiah"),
  (lc "Jeremia", lc "Jeremiah"),
  (lc "Klaagliederen", lc "Lamentations"),
  (lc "Ezechiël", lc "Ezekiel"),
  (lc "Daniël", lc "Daniel"),
  (lc "Hosea", lc "Hosea"),
  (lc "Joël", lc "Joel"),
  (lc "Amos", lc "Amos"),
  (lc "Obadja", lc "Obadiah"),
  (lc "Jona", lc "Jonah"),
  (lc "Micha", lc "Micah"),
  (lc "Nahum", lc "Nahum"),
  (lc "Habakuk", lc "Habakkuk"),
  (lc "Zefanja", lc "Zephaniah"),
  (lc "Haggaï", lc "Haggai"),
  (lc "Zacharia", lc "Zechariah"),
  (lc "Maleachi", lc "Malachi"),
  (lc "Mattheüs", lc "Matthew"),
  (lc "Markus", lc "Mark"),
  (lc "Lukas", lc "Luke"),
  (lc "Johannes", lc "John"),
  (lc "Handelingen", lc "Acts"),
  (lc "Romeinen", lc "Romans"),
  (lc "1 Korinthe", lc "1Corinthians"),
  (lc "2 Korinthe", lc "2Corinthians"),
  (lc "Galaten", lc "Galatians"),
  (lc "Efeze", lc "Ephesians"),
  (lc "Filippenzen", lc "Philippians"),
  (lc "Kolossenzen", lc "Colossians"),
  (lc "1 Thessalonicenzen", lc "1Thessalonians"),
  (lc "2 Thessalonicenzen", lc "2Thessalonians"),
  (lc "1 Timotheüs", lc "1Timothy"),
  (lc "2 Timotheüs", lc "2Timothy"),
  (lc "Titus", lc "Titus"),
  (lc "Filemon", lc "Philemon"),
  (lc "Hebreeën", lc "Hebrews"),
  (lc "Jakobus", lc "James"),
  (lc "1 Petrus", lc "1Peter"),
  (lc "2 Petrus", lc "2Peter"),
  (lc "1 Johannes", lc "1John"),
  (lc "2 Johannes", lc "2John"),
  (lc "3 Johannes", lc "3John"),
  (lc "Judas", lc "Jude"),
  (lc "Openbaring", lc "Revelation")
]

/-- `DIATHEKE_TO_CANON`: reverse of the forward token table. -/
def diathekeToCanon : List (Str × Str) :=
  diathekeTokens.foldl (fun m p => dictInsert m p.2 p.1) []

/-- List-prefix test (Python `str.startswith`). -/
def isPrefixL : Str → Str → Bool
  | [], _ => true
  | _ :: _, [] => false
  | a :: as, b :: bs => beqC a b && isPrefixL as bs

/-- Code-point lexicographic order on strings (Python `str` comparison). -/
def strLTb : Str → Str → Bool
  | [], [] => false
  | [], _ :: _ => true
  | _ :: _, [] => false
  | a :: as, b :: bs => a.toNat < b.toNat || (beqC a b && strLTb as bs)

/-- Lexicographic order on `(index, name)` pairs (Python tuple order). -/
def pairLE (x y : Int × Str) : Bool :=
  x.1 < y.1 || (x.1 = y.1 && (strLTb x.2 y.2 || beqStr x.2 y.2))

def insertSorted (x : Int × Str) : List (Int × Str) → List (Int × Str)
  | [] => [x]
  | y :: ys => if pairLE x y then x :: y :: ys else y :: insertSorted x ys

/-- Ascending sort (Python `list.sort` on tuples). -/
def sortPairs (l : List (Int × Str)) : List (Int × Str) :=
  l.foldr insertSorted []

/-- `resolve_alias(alias, fuzzy)`: exact lookups, case-insensitive name
match, then fuzzy prefix matching resolved toward the lowest canon index.
The alias table is a parameter so that proofs can substitute its computed
value (`aliasMap_eq`) once instead of re-deriving it at every call. -/
def resolve_alias_core (amap : List (Str × Str)) (alias0 : Str) (fuzzy : Bool) : Option Str :=
  if alias0.isEmpty then none
  else
    let token := pyLower (pyStrip alias0)
    let normalized := token.filter (fun c => !(beqC c '.' || beqC c ' '))
    match dictGet amap token with
    | some name => some name
    | none =>
    match dictGet amap normalized with
    | some name => some name
    | none =>
    match bookOrder.find? (fun name => beqStr (pyLower name) token) with
    | some name => some name
    | none =>
      if fuzzy then
        let candidates := amap.foldl (fun acc p =>
          if isPrefixL normalized p.1 then
            let idx := book_index p.2
            if 0 ≤ idx && !(acc.any (fun q => q.1 = idx && beqStr q.2 p.2)) then acc ++ [(idx, p.2)]
            else acc
          else acc) []
        match (sortPairs candidates).head? with
        | some c => some c.2
        | none => none
      else none

/-- `resolve_alias(alias)` over the real alias table. -/
def resolve_alias_f (alias0 : Str) (fuzzy : Bool) : Option Str :=
  resolve_alias_core aliasMap alias0 fuzzy

/-- `resolve_alias` with the default `fuzzy=True`. -/
def resolve_alias (a : Str) : Option Str := resolve_alias_f a true

/-- The computed value of `aliasMap`, spelled out so that proofs can
rewrite with `aliasMap_eq` instead of re-evaluating the fold. -/
def aliasMapLit : List (Str × Str) := [
  (lc "genesis", lc "Genesis"),
  (lc "gen", lc "Genesis"),
  (lc "ge", lc "Genesis"),
  (lc "gn", lc "Genesis"),
  (lc "1mo", lc "Genesis"),
  (lc "1mos", lc "Genesis"),
  (lc "exodus", lc "Exodus"),
  (lc "ex", lc "Exodus"),
  (lc "exo", lc "Exodus"),
  (lc "2mo", lc "Exodus"),
  (lc "2mos", lc "Exodus"),
  (lc "leviticus", lc "Leviticus"),
  (lc "lev", lc "Leviticus"),
  (lc "le", lc "Leviticus"),
  (lc "3mo", lc "Leviticus"),
  (lc "3mos", lc "Leviticus"),
  (lc "numeri", lc "Numeri"),
  (lc "num", lc "Numeri"),
  (lc "nu", lc "Numeri"),
  (lc "numbers", lc "Numeri"),
  (lc "4mo", lc "Numeri"),
  (lc "4mos", lc "Numeri"),
  (lc "deuteronomium", lc "Deuteronomium"),
  (lc "deut", lc "Deuteronomium"),
  (lc "de", lc "Deuteronomium"),
  (lc "dt", lc "Deuteronomium"),
  (lc "deuteronomy", lc "Deuteronomium"),
  (lc "5mo", lc "Deuteronomium"),
  (lc "5mos", lc "Deuteronomium"),
  (lc "jozua", lc "Jozua"),
  (lc "joz", lc "Jozua"),
  (lc "jos", lc "Jozua"),
  (lc "joshua", lc "Jozua"),
  (lc "richteren", lc "Richteren"),
  (lc "richt", lc "Richteren"),
  (lc "ri", lc "Richteren"),
  (lc "judges", lc "Richteren"),
  (lc "judg", lc "Richteren"),
  (lc "ruth", lc "Ruth"),
  (lc "ru", lc "Ruth"),
  (lc "rth", lc "Ruth"),
  (lc "1 samuël", lc "1 Samuël"),
  (lc "1sam", lc "1 Samuël"),
  (lc "1sa", lc "1 Samuël"),
  (lc "1samuel", lc "1 Samuël"),
  (lc "1 samuel", lc "1 Samuël"),
  (lc "2 samuël", lc "2 Samuël"),
  (lc "2sam", lc "2 Samuël"),
  (lc "2sa", lc "2 Samuël"),
  (lc "2samuel", lc "2 Samuël"),
  (lc "2 samuel", lc "2 Samuël"),
  (lc "1 koningen", lc "1 Koningen"),
  (lc "1kon", lc "1 Koningen"),
  (lc "1ki", lc "1 Koningen"),
  (lc "1kings", lc "1 Koningen"),
  (lc "1koningen", lc "1 Koningen"),
  (lc "2 koningen", lc "2 Koningen"),
  (lc "2kon", lc "2 Koningen"),
  (lc "2ki", lc "2 Koningen"),
  (lc "2kings", lc "2 Koningen"),
  (lc "2koningen", lc "2 Koningen"),
  (lc "1 kronieken", lc "1 Kronieken"),
  (lc "1kron", lc "1 Kronieken"),
  (lc "1chr", lc "1 Kronieken"),
  (lc "1chronicles", lc "1 Kronieken"),
  (lc "1kronieken", lc "1 Kronieken"),
  (lc "2 kronieken", lc "2 Kronieken"),
  (lc "2kron", lc "2 Kronieken"),
  (lc "2chr", lc "2 Kronieken"),
  (lc "2chronicles", lc "2 Kronieken"),
  (lc "2kronieken", lc "2 Kronieken"),
  (lc "ezra", lc "Ezra"),
  (lc "ezr", lc "Ezra"),
  (lc "nehemia", lc "Nehemia"),
  (lc "neh", lc "Nehemia"),
  (lc "ne", lc "Nehemia"),
  (lc "nehemiah", lc "Nehemia"),
  (lc "esther", lc "Esther"),
  (lc "est", lc "Esther"),
  (lc "job", lc "Job"),
  (lc "jb", lc "Job"),
  (lc "psalmen", lc "Psalmen"),
  (lc "ps", lc "Psalmen"),
  (lc "psa", lc "Psalmen"),
  (lc "psalm", lc "Psalmen"),
  (lc "psalms", lc "Psalmen"),
  (lc "spreuken", lc "Spreuken"),
  (lc "spr", lc "Spreuken"),
  (lc "pr", lc "Spreuken"),
  (lc "prov", lc "Spreuken"),
  (lc "proverbs", lc "Spreuken"),
  (lc "prediker", lc "Prediker"),
  (lc "pred", lc "Prediker"),
  (lc "ec", lc "Prediker"),
  (lc "ecc", lc "Prediker"),
  (lc "ecclesiastes", lc "Prediker"),
  (lc "hooglied", lc "Hooglied"),
  (lc "hoogl", lc "Hooglied"),
  (lc "hl", lc "Hooglied"),
  (lc "song", lc "Hooglied"),
  (lc "songofsolomon", lc "Hooglied"),
  (lc "canticles", lc "Hooglied"),
  (lc "jesaja", lc "Jesaja"),
  (lc "jes", lc "Jesaja"),
  (lc "isa", lc "Jesaja"),
  (lc "isaiah", lc "Jesaja"),
  (lc "jeremia", lc "Jeremia"),
  (lc "jer", lc "Jeremia"),
  (lc "je", lc "Jeremia"),
  (lc "jeremiah", lc "Jeremia"),
  (lc "klaagliederen", lc "Klaagliederen"),
  (lc "klaagl", lc "Klaagliederen"),
  (lc "lam", lc "Klaagliederen"),
  (lc "lamentations", lc "Klaagliederen"),
  (lc "ezechiël", lc "Ezechiël"),
  (lc "ez", lc "Ezechiël"),
  (lc "ezek", lc "Ezechiël"),
  (lc "ezechiel", lc "Ezechiël"),
  (lc "ezekiel", lc "Ezechiël"),
  (lc "daniël", lc "Daniël"),
  (lc "dan", lc "Daniël"),
  (lc "da", lc "Daniël"),
  (lc "daniel", lc "Daniël"),
  (lc "hosea", lc "Hosea"),
  (lc "hos", lc "Hosea"),
  (lc "ho", lc "Hosea"),
  (lc "joël", lc "Joël"),
  (lc "joel", lc "Joël"),
  (lc "joe", lc "Joël"),
  (lc "jl", lc "Joël"),
  (lc "amos", lc "Amos"),
  (lc "am", lc "Amos"),
  (lc "obadja", lc "Obadja"),
  (lc "ob", lc "Obadja"),
  (lc "obad", lc "Obadja"),
  (lc "obadiah", lc "Obadja"),
  (lc "jona", lc "Jona"),
  (lc "jon", lc "Jona"),
  (lc "jonah", lc "Jona"),
  (lc "micha", lc "Micha"),
  (lc "mi", lc "Micha"),
  (lc "mic", lc "Micha"),
  (lc "micah", lc "Micha"),
  (lc "nahum", lc "Nahum"),
  (lc "nah", lc "Nahum"),
  (lc "na", lc "Nahum"),
  (lc "habakuk", lc "Habakuk"),
  (lc "hab", lc "Habakuk"),
  (lc "habakkuk", lc "Habakuk"),
  (lc "zefanja", lc "Zefanja"),
  (lc "zef", lc "Zefanja"),
  (lc "zeph", lc "Zefanja"),
  (lc "zephaniah", lc "Zefanja"),
  (lc "haggaï", lc "Haggaï"),
  (lc "hag", lc "Haggaï"),
  (lc "haggai", lc "Haggaï"),
  (lc "zacharia", lc "Zacharia"),
  (lc "zach", lc "Zacharia"),
  (lc "zec", lc "Zacharia"),
  (lc "zechariah", lc "Zacharia"),
  (lc "maleachi", lc "Maleachi"),
  (lc "mal", lc "Maleachi"),
  (lc "malachi", lc "Maleachi"),
  (lc "mattheüs", lc "Mattheüs"),
  (lc "matt", lc "Mattheüs"),
  (lc "mt", lc "Mattheüs"),
  (lc "mattheus", lc "Mattheüs"),
  (lc "matthew", lc "Mattheüs"),
  (lc "markus", lc "Markus"),
  (lc "mark", lc "Markus"),
  (lc "mk", lc "Markus"),
  (lc "marcus", lc "Markus"),
  (lc "lukas", lc "Lukas"),
  (lc "luk", lc "Lukas"),
  (lc "lk", lc "Lukas"),
  (lc "luke", lc "Lukas"),
  (lc "johannes", lc "Johannes"),
  (lc "joh", lc "Johannes"),
  (lc "jn", lc "Johannes"),
  (lc "john", lc "Johannes"),
  (lc "handelingen", lc "Handelingen"),
  (lc "hand", lc "Handelingen"),
  (lc "acts", lc "Handelingen"),
  (lc "actsoftheapostles", lc "Handelingen"),
  (lc "romeinen", lc "Romeinen"),
  (lc "rom", lc "Romeinen"),
  (lc "ro", lc "Romeinen"),
  (lc "romans", lc "Romeinen"),
  (lc "1 korinthe", lc "1 Korinthe"),
  (lc "1kor", lc "1 Korinthe"),
  (lc "1co", lc "1 Korinthe"),
  (lc "1cor", lc "1 Korinthe"),
  (lc "1korinthe", lc "1 Korinthe"),
  (lc "1corinthians", lc "1 Korinthe"),
  (lc "2 korinthe", lc "2 Korinthe"),
  (lc "2kor", lc "2 Korinthe"),
  (lc "2co", lc "2 Korinthe"),
  (lc "2cor", lc "2 Korinthe"),
  (lc "2korinthe", lc "2 Korinthe"),
  (lc "2corinthians", lc "2 Korinthe"),
  (lc "galaten", lc "Galaten"),
  (lc "gal", lc "Galaten"),
  (lc "ga", lc "Galaten"),
  (lc "galatians", lc "Galaten"),
  (lc "efeze", lc "Efeze"),
  (lc "ef", lc "Efeze"),
  (lc "eph", lc "Efeze"),
  (lc "ephesians", lc "Efeze"),
  (lc "filippenzen", lc "Filippenzen"),
  (lc "fil", lc "Filippenzen"),
  (lc "php", lc "Filippenzen"),
  (lc "philippians", lc "Filippenzen"),
  (lc "kolossenzen", lc "Kolossenzen"),
  (lc "kol", lc "Kolossenzen"),
  (lc "col", lc "Kolossenzen"),
  (lc "colossians", lc "Kolossenzen"),
  (lc "1 thessalonicenzen", lc "1 Thessalonicenzen"),
  (lc "1thess", lc "1 Thessalonicenzen"),
  (lc "1th", lc "1 Thessalonicenzen"),
  (lc "1thessalonicenzen", lc "1 Thessalonicenzen"),
  (lc "1thessalonians", lc "1 Thessalonicenzen"),
  (lc "2 thessalonicenzen", lc "2 Thessalonicenzen"),
  (lc "2thess", lc "2 Thessalonicenzen"),
  (lc "2th", lc "2 Thessalonicenzen"),
  (lc "2thessalonicenzen", lc "2 Thessalonicenzen"),
  (lc "2thessalonians", lc "2 Thessalonicenzen"),
  (lc "1 timotheüs", lc "1 Timotheüs"),
  (lc "1tim", lc "1 Timotheüs"),
  (lc "1ti", lc "1 Timotheüs"),
  (lc "1 timotheus", lc "1 Timotheüs"),
  (lc "1timotheus", lc "1 Timotheüs"),
  (lc "1timothy", lc "1 Timotheüs"),
  (lc "2 timotheüs", lc "2 Timotheüs"),
  (lc "2tim", lc "2 Timotheüs"),
  (lc "2ti", lc "2 Timotheüs"),
  (lc "2 timotheus", lc "2 Timotheüs"),
  (lc "2timotheus", lc "2 Timotheüs"),
  (lc "2timothy", lc "2 Timotheüs"),
  (lc "titus", lc "Titus"),
  (lc "tit", lc "Titus"),
  (lc "filemon", lc "Filemon"),
  (lc "filem", lc "Filemon"),
  (lc "phm", lc "Filemon"),
  (lc "philemon", lc "Filemon"),
  (lc "hebreeën", lc "Hebreeën"),
  (lc "heb", lc "Hebreeën"),
  (lc "hebreeen", lc "Hebreeën"),
  (lc "hebrews", lc "Hebreeën"),
  (lc "jakobus", lc "Jakobus"),
  (lc "jak", lc "Jakobus"),
  (lc "jas", lc "Jakobus"),
  (lc "james", lc "Jakobus"),
  (lc "1 petrus", lc "1 Petrus"),
  (lc "1pet", lc "1 Petrus"),
  (lc "1pe", lc "1 Petrus"),
  (lc "1petrus", lc "1 Petrus"),
  (lc "1peter", lc "1 Petrus"),
  (lc "2 petrus", lc "2 Petrus"),
  (lc "2pet", lc "2 Petrus"),
  (lc "2pe", lc "2 Petrus"),
  (lc "2petrus", lc "2 Petrus"),
  (lc "2peter", lc "2 Petrus"),
  (lc "1 johannes", lc "1 Johannes"),
  (lc "1joh", lc "1 Johannes"),
  (lc "1jn", lc "1 Johannes"),
  (lc "1johannes", lc "1 Johannes"),
  (lc "1john", lc "1 Johannes"),
  (lc "2 johannes", lc "2 Johannes"),
  (lc "2joh", lc "2 Johannes"),
  (lc "2jn", lc "2 Johannes"),
  (lc "2johannes", lc "2 Johannes"),
  (lc "2john", lc "2 Johannes"),
  (lc "3 johannes", lc "3 Johannes"),
  (lc "3joh", lc "3 Johannes"),
  (lc "3jn", lc "3 Johannes"),
  (lc "3johannes", lc "3 Johannes"),
  (lc "3john", lc "3 Johannes"),
  (lc "judas", lc "Judas"),
  (lc "jud", lc "Judas"),
  (lc "jude", lc "Judas"),
  (lc "openbaring", lc "Openbaring"),
  (lc "openb", lc "Openbaring"),
  (lc "rev", lc "Openbaring"),
  (lc "revelation", lc "Openbaring"),
  (lc "apocalypse", lc "Openbaring")
]

/-- The computed value of `diathekeToCanon` (see `diathekeToCanon_eq`). -/
def diathekeToCanonLit : List (Str × Str) := [
  (lc "Genesis", lc "Genesis"),
  (lc "Exodus", lc "Exodus"),
  (lc "Leviticus", lc "Leviticus"),
  (lc "Numbers", lc "Numeri"),
  (lc "Deuteronomy", lc "Deuteronomium"),
  (lc "Joshua", lc "Jozua"),
  (lc "Judges", lc "Richteren"),
  (lc "Ruth", lc "Ruth"),
  (lc "1Samuel", lc "1 Samuël"),
  (lc "2Samuel", lc "2 Samuël"),
  (lc "1Kings", lc "1 Koningen"),
  (lc "2Kings", lc "2 Koningen"),
  (lc "1Chronicles", lc "1 Kronieken"),
  (lc "2Chronicles", lc "2 Kronieken"),
  (lc "Ezra", lc "Ezra"),
  (lc "Nehemiah", lc "Nehemia"),
  (lc "Esther", lc "Esther"),
  (lc "Job", lc "Job"),
  (lc "Psalms", lc "Psalmen"),
  (lc "Proverbs", lc "Spreuken"),
  (lc "Ecclesiastes", lc "Prediker"),
  (lc "Song of Solomon", lc "Hooglied"),
  (lc "Isaiah", lc "Jesaja"),
  (lc "Jeremiah", lc "Jeremia"),
  (lc "Lamentations", lc "Klaagliederen"),
  (lc "Ezekiel", lc "Ezechiël"),
  (lc "Daniel", lc "Daniël"),
  (lc "Hosea", lc "Hosea"),
  (lc "Joel", lc "Joël"),
  (lc "Amos", lc "Amos"),
  (lc "Obadiah", lc "Obadja"),
  (lc "Jonah", lc "Jona"),
  (lc "Micah", lc "Micha"),
  (lc "Nahum", lc "Nahum"),
  (lc "Habakkuk", lc "Habakuk"),
  (lc "Zephaniah", lc "Zefanja"),
  (lc "Haggai", lc "Haggaï"),
  (lc "Zechariah", lc "Zacharia"),
  (lc "Malachi", lc "Maleachi"),
  (lc "Matthew", lc "Mattheüs"),
  (lc "Mark", lc "Markus"),
  (lc "Luke", lc "Lukas"),
  (lc "John", lc "Johannes"),
  (lc "Acts", lc "Handelingen"),
  (lc "Romans", lc "Romeinen"),
  (lc "1Corinthians", lc "1 Korinthe"),
  (lc "2Corinthians", lc "2 Korinthe"),
  (lc "Galatians", lc "Galaten"),
  (lc "Ephesians", lc "Efeze"),
  (lc "Philippians", lc "Filippenzen"),
  (lc "Colossians", lc "Kolossenzen"),
  (lc "1Thessalonians", lc "1 Thessalonicenzen"),
  (lc "2Thessalonians", lc "2 Thessalonicenzen"),
  (lc "1Timothy", lc "1 Timotheüs"),
  (lc "2Timothy", lc "2 Timotheüs"),
  (lc "Titus", lc "Titus"),
  (lc "Philemon", lc "Filemon"),
  (lc "Hebrews", lc "Hebreeën"),
  (lc "James", lc "Jakobus"),
  (lc "1Peter", lc "1 Petrus"),
  (lc "2Peter", lc "2 Petrus"),
  (lc "1John", lc "1 Johannes"),
  (lc "2John", lc "2 Johannes"),
  (lc "3John", lc "3 Johannes"),
  (lc "Jude", lc "Judas"),
  (lc "Revelation", lc "Openbaring")
]

set_option maxRecDepth 100000 in
set_option maxHeartbeats 4000000 in
theorem aliasMap_eq : aliasMap = aliasMapLit := by decide

set_option maxRecDepth 100000 in
set_option maxHeartbeats 4000000 in
theorem diathekeToCanon_eq : diathekeToCanon = diathekeToCanonLit := by decide

theorem resolve_alias_unfold (a : Str) :
    resolve_alias a = resolve_alias_core aliasMapLit a true := by
  rw [resolve_alias, resolve_alias_f, aliasMap_eq]

set_option maxRecDepth 100000 in
theorem c8_bulk : (canonTable.all (fun b =>
    resolve_alias_core aliasMapLit b.name true == some b.name &&
    resolve_alias_core aliasMapLit b.abbr true == some b.name)) = true := by
  decide

/-- Claim C8: for every entry of the 66-book canon table, resolving the
canonical display name yields that canonical name, and resolving the
abbreviation yields the same canonical name. -/
theorem canon_resolve_identity :
    ∀ b ∈ canonTable,
      resolve_alias b.name = some b.name ∧ resolve_alias b.abbr = some b.name := by
  intro b hb
  have h := List.all_eq_true.mp c8_bulk b hb
  rw [Bool.and_eq_true, beq_iff_eq, beq_iff_eq] at h
  rw [resolve_alias_unfold, resolve_alias_unfold]
  exact h

/-- Witness for C8 at the first canon entry. -/
theorem canon_resolve_identity_witness :
    resolve_alias (lc "Genesis") = some (lc "Genesis") ∧
    resolve_alias (lc "Gen") = some (lc "Genesis") := by
  have hmem : (⟨lc "Genesis", lc "Gen",
      [lc "gen", lc "ge", lc "gn", lc "genesis", lc "1mo", lc "1mos"], 50⟩ : CanonBook) ∈ canonTable := by
    decide
  exact canon_resolve_identity _ hmem

theorem dotspace_of_norm_empty {token : Str}
    (h : token.filter (fun c => !(beqC c '.' || beqC c ' ')) = []) :
    ∀ c ∈ token, c = '.' ∨ c = ' ' := by
  intro c hc
  have h3 := List.filter_eq_nil_iff.mp h c hc
  have h2 : (beqC c '.' || beqC c ' ') = true := by
    revert h3
    cases (beqC c '.' || beqC c ' ') <;> simp
  rcases (Bool.or_eq_true _ _).mp h2 with h3 | h3
  · exact Or.inl (beqC_iff.mp h3)
  · exact Or.inr (beqC_iff.mp h3)

theorem c10_keys_not_dotspace : aliasMapLit.all
    (fun p => p.1.any (fun c => !(beqC c '.' || beqC c ' '))) = true := by
  decide

theorem c10_names_not_dotspace : bookOrder.all
    (fun n => (pyLower n).any (fun c => !(beqC c '.' || beqC c ' '))) = true := by
  decide

theorem c10_fuzzy_all : (sortPairs (aliasMapLit.foldl (fun acc p =>
    if isPrefixL [] p.1 then
      if 0 ≤ book_index p.2 && !(acc.any (fun q => q.1 = book_index p.2 && beqStr q.2 p.2)) then
        acc ++ [(book_index p.2, p.2)]
      else acc
    else acc) [])).head? = some (0, lc "Genesis") := by
  decide

theorem dictGet_none_of_all_keys_have_other {m : List (Str × Str)} {token : Str}
    (hm : m.all (fun p => p.1.any (fun c => !(beqC c '.' || beqC c ' '))) = true)
    (ht : ∀ c ∈ token, c = '.' ∨ c = ' ') :
    dictGet m token = none := by
  rw [dictGet]
  rw [List.find?_eq_none.mpr]
  · rfl
  · intro p hp
    simp only [Bool.not_eq_true]
    cases hbe : beqStr p.1 token with
    | false => rfl
    | true =>
      exfalso
      have hkey := List.all_eq_true.mp hm p hp
      have heq : p.1 = token := beqStr_iff.mp hbe
      rw [List.any_eq_true] at hkey
      obtain ⟨c, hc, hcprop⟩ := hkey
      have := ht c (heq ▸ hc)
      rcases this with h | h <;>
        simp [h, beqC] at hcprop

/-- Claim C10: every non-empty input whose normalized form (lower-cased,
periods and spaces removed) is empty resolves, with fuzzy matching
enabled, to "Genesis" (canon index 0), because the empty string is a
prefix of every alias key. -/
theorem resolve_alias_norm_empty (s : Str) (hne : s ≠ [])
    (hnorm : (pyLower (pyStrip s)).filter (fun c => !(beqC c '.' || beqC c ' ')) = []) :
    resolve_alias s = some (lc "Genesis") := by
  rw [resolve_alias_unfold, resolve_alias_core]
  rw [if_neg (by simpa using hne)]
  simp only []
  have hds : ∀ c ∈ pyLower (pyStrip s), c = '.' ∨ c = ' ' :=
    dotspace_of_norm_empty hnorm
  rw [dictGet_none_of_all_keys_have_other c10_keys_not_dotspace hds]
  rw [hnorm]
  rw [show dictGet aliasMapLit [] = none from by decide]
  have hfind : bookOrder.find? (fun name => beqStr (pyLower name) (pyLower (pyStrip s))) = none := by
    rw [List.find?_eq_none]
    intro n hn
    simp only [Bool.not_eq_true]
    cases hbe : beqStr (pyLower n) (pyLower (pyStrip s)) with
    | false => rfl
    | true =>
      exfalso
      have heq := beqStr_iff.mp hbe
      have hname := List.all_eq_true.mp c10_names_not_dotspace n hn
      rw [List.any_eq_true] at hname
      obtain ⟨c, hc, hcprop⟩ := hname
      have := hds c (heq ▸ hc)
      rcases this with h | h <;> simp [h, beqC] at hcprop
  rw [hfind]
  simp only [if_true]
  rw [c10_fuzzy_all]

/-- Witness for C10 at the inputs " " and "..". -/
theorem resolve_alias_norm_empty_witness :
    resolve_alias (lc " ") = some (lc "Genesis") ∧
    resolve_alias (lc "..") = some (lc "Genesis") :=
  ⟨resolve_alias_norm_empty (lc " ") (by decide) (by decide),
   resolve_alias_norm_empty (lc "..") (by decide) (by decide)⟩

/-- First character equals `c`. -/
def headIsC (c : Char) : Str → Bool
  | [] => false
  | d :: _ => beqC d c

/-- Last character equals `c`. -/
def lastIsC (c : Char) : Str → Bool
  | [] => false
  | [d] => beqC d c
  | _ :: ds => lastIsC c ds

/-- A line that is purely a parenthesized module-attribution tag. -/
def parenWrapped (s : Str) : Bool := headIsC '(' s && lastIsC ')' s

/-- Markup/entity/whitespace cleanup applied to one already-stripped
line: strip tags when a `<` is present, unescape entities when a `&` is
present, collapse whitespace, strip. -/
def normalize_clean (line : Str) : Str :=
  let line1 := if line.any (fun c => beqC c '<') then htmlTagSubSpace line else line
  let line2 := if line1.any (fun c => beqC c '&') then pyUnescape line1 else line1
  pyStrip (collapseWS line2)

/-- `DiathekeBackend._normalize_lines`, one raw line: strip, drop blank
and attribution lines, clean, drop if then empty. -/
def normalize_one (raw : Str) : Option Str :=
  let line := pyStrip raw
  if line.isEmpty then none
  else if parenWrapped line then none
  else if (normalize_clean line).isEmpty then none
  else some (normalize_clean line)

/-- `DiathekeBackend._normalize_lines`: the Output Normalizer. -/
def normalize_lines (text : Str) : List Str :=
  (pySplitlines text).filterMap normalize_one

/-- Whitespace discipline of collapsed text: every whitespace character
is a plain space and no space follows a space (the flag mirrors
`collapseAux`). -/
def wsOk : Bool → Str → Bool
  | _, [] => true
  | b, c :: cs =>
    (if isSpaceC c then beqC c ' ' && !b else true) && wsOk (beqC c ' ') cs

theorem space_isSpaceC : isSpaceC ' ' = true := by decide

theorem beqC_space_of_not_space {c : Char} (h : isSpaceC c = false) :
    beqC c ' ' = false := by
  cases hb : beqC c ' ' with
  | false => rfl
  | true => rw [beqC_iff.mp hb] at h; simp [space_isSpaceC] at h

theorem collapseAux_wsOk : ∀ (s : Str) (b : Bool), wsOk b (collapseAux b s) = true := by
  intro s
  induction s with
  | nil => intro b; rfl
  | cons c cs ih =>
    intro b
    rw [collapseAux]
    by_cases hsp : isSpaceC c = true
    · rw [if_pos hsp]
      cases b with
      | true => simpa using ih true
      | false =>
        simp only [wsOk]
        rw [if_pos space_isSpaceC]
        simp [ih true, beqC]
    · rw [if_neg hsp]
      simp only [wsOk]
      rw [if_neg hsp]
      have : beqC c ' ' = false := beqC_space_of_not_space (by simpa using hsp)
      simp [this, ih false]

theorem wsOk_flag_irrelevant {c : Char} {cs : Str} (h : isSpaceC c = false) (b b2 : Bool) :
    wsOk b (c :: cs) = wsOk b2 (c :: cs) := by
  simp only [wsOk]
  rw [if_neg (by simp [h]), if_neg (by simp [h])]

theorem wsOk_dropWhile {s : Str} {b : Bool} (h : wsOk b s = true) :
    wsOk false (s.dropWhile isSpaceC) = true := by
  induction s generalizing b with
  | nil => rfl
  | cons c cs ih =>
    by_cases hsp : isSpaceC c = true
    · rw [List.dropWhile_cons, if_pos hsp]
      simp only [wsOk] at h
      rw [Bool.and_eq_true] at h
      have h2 := h.2
      have hcc : beqC c ' ' = true := by
        have := h.1
        rw [if_pos hsp] at this
        rw [Bool.and_eq_true] at this
        exact this.1
      rw [hcc] at h2
      exact ih h2
    · rw [List.dropWhile_cons, if_neg hsp]
      rw [wsOk_flag_irrelevant (by simpa using hsp) false b]
      exact h

theorem wsOk_dropTrailing {s : Str} : ∀ {b : Bool}, wsOk b s = true →
    wsOk b (dropTrailingWS s) = true := by
  induction s with
  | nil => intro b h; exact h
  | cons c cs ih =>
    intro b h
    simp only [wsOk, Bool.and_eq_true] at h
    rw [dropTrailingWS]
    split
    · rfl
    · simp only [wsOk, Bool.and_eq_true]
      exact ⟨h.1, ih h.2⟩

theorem collapseAux_id : ∀ {s : Str} {b : Bool}, wsOk b s = true →
    collapseAux b s = s := by
  intro s
  induction s with
  | nil => intro b _; rfl
  | cons c cs ih =>
    intro b h
    simp only [wsOk, Bool.and_eq_true] at h
    rw [collapseAux]
    by_cases hsp : isSpaceC c = true
    · rw [if_pos hsp]
      have h1 := h.1
      rw [if_pos hsp, Bool.and_eq_true] at h1
      have hc : c = ' ' := beqC_iff.mp h1.1
      have hb : b = false := by simpa using h1.2
      rw [hb]
      rw [if_neg (by simp : ¬ (false = true))]
      have h2 := h.2
      rw [h1.1] at h2
      rw [ih h2, hc]
    · rw [if_neg hsp]
      have h2 := h.2
      rw [beqC_space_of_not_space (by simpa using hsp)] at h2
      rw [ih h2]

/-- `wsOk` text contains no line-break characters. -/
theorem wsOk_no_linebreak : ∀ {s : Str} {b : Bool}, wsOk b s = true →
    ∀ c ∈ s, isLineBreakC c = false := by
  intro s
  induction s with
  | nil => intro b _ c hc; simp at hc
  | cons d ds ih =>
    intro b h c hc
    simp only [wsOk, Bool.and_eq_true] at h
    rcases List.mem_cons.mp hc with rfl | hc2
    · by_cases hsp : isSpaceC c = true
      · have h1 := h.1
        rw [if_pos hsp, Bool.and_eq_true] at h1
        rw [beqC_iff.mp h1.1]
        decide
      · cases hlb : isLineBreakC c with
        | false => rfl
        | true =>
          exfalso
          have : isSpaceC c = true := by
            simp only [isLineBreakC] at hlb
            simp only [isSpaceC]
            simp at hlb ⊢
            omega
          simp [this] at hsp
    · exact ih h.2 c hc2

/-- First character of the strip result is not whitespace. -/
def headNotSpace : Str → Bool
  | [] => true
  | c :: _ => !isSpaceC c

def lastNotSpace : Str → Bool
  | [] => true
  | [c] => !isSpaceC c
  | _ :: cs => lastNotSpace cs

theorem headNotSpace_dropWhile (s : Str) :
    headNotSpace (s.dropWhile isSpaceC) = true := by
  induction s with
  | nil => rfl
  | cons c cs ih =>
    rw [List.dropWhile_cons]
    split
    · exact ih
    · rename_i h
      simp [headNotSpace, h]

theorem lastNotSpace_dropTrailing (s : Str) :
    lastNotSpace (dropTrailingWS s) = true := by
  induction s with
  | nil => rfl
  | cons c cs ih =>
    rw [dropTrailingWS]
    split
    · rfl
    · rename_i h
      cases hr : dropTrailingWS cs with
      | nil =>
        have hc : isSpaceC c = false := by
          cases hs : isSpaceC c with
          | false => rfl
          | true =>
            exfalso
            apply h
            rw [hr, hs]
            rfl
        simp [lastNotSpace, hc]
      | cons x xs =>
        rw [hr] at ih
        cases xs with
        | nil => simpa [lastNotSpace] using ih
        | cons y ys => simpa [lastNotSpace] using ih

theorem headNotSpace_dropTrailing {s : Str} (h : headNotSpace s = true) :
    headNotSpace (dropTrailingWS s) = true := by
  cases s with
  | nil => rfl
  | cons c cs =>
    rw [dropTrailingWS]
    split
    · rfl
    · simpa [headNotSpace] using h

theorem dropWhile_id_of_headNotSpace {s : Str} (h : headNotSpace s = true) :
    s.dropWhile isSpaceC = s := by
  cases s with
  | nil => rfl
  | cons c cs =>
    rw [List.dropWhile_cons, if_neg]
    simp only [headNotSpace] at h
    simpa using h

theorem dropTrailing_id_of_lastNotSpace : ∀ {s : Str},
    lastNotSpace s = true → dropTrailingWS s = s := by
  intro s
  induction s with
  | nil => intro _; rfl
  | cons c cs ih =>
    intro h
    rw [dropTrailingWS]
    cases cs with
    | nil =>
      simp only [lastNotSpace] at h
      have hc : isSpaceC c = false := by simpa using h
      simp [dropTrailingWS, hc]
    | cons d ds =>
      have h2 : lastNotSpace (d :: ds) = true := by
        simpa [lastNotSpace] using h
      rw [ih h2, if_neg (by simp)]

theorem pyStrip_id {s : Str} (h1 : headNotSpace s = true) (h2 : lastNotSpace s = true) :
    pyStrip s = s := by
  rw [pyStrip, dropWhile_id_of_headNotSpace h1, dropTrailing_id_of_lastNotSpace h2]


theorem strip_collapse_shape (y : Str) :
    wsOk false (pyStrip (collapseWS y)) = true ∧
    headNotSpace (pyStrip (collapseWS y)) = true ∧
    lastNotSpace (pyStrip (collapseWS y)) = true := by
  rw [pyStrip, collapseWS]
  refine ⟨wsOk_dropTrailing (wsOk_dropWhile (collapseAux_wsOk _ false)), ?_, ?_⟩
  · exact headNotSpace_dropTrailing (headNotSpace_dropWhile _)
  · exact lastNotSpace_dropTrailing _

theorem normalize_clean_shape (line : Str) :
    wsOk false (normalize_clean line) = true ∧
    headNotSpace (normalize_clean line) = true ∧
    lastNotSpace (normalize_clean line) = true := by
  rw [normalize_clean]
  exact strip_collapse_shape _

/-- Every line the normalizer emits is nonempty, stripped, and
whitespace-collapsed. -/
theorem normalize_one_shape {raw L : Str} (h : normalize_one raw = some L) :
    L ≠ [] ∧ wsOk false L = true ∧ headNotSpace L = true ∧ lastNotSpace L = true := by
  rw [normalize_one] at h
  split at h
  · exact absurd h (by simp)
  · split at h
    · exact absurd h (by simp)
    · split at h
      · exact absurd h (by simp)
      · rename_i hne
        have hL : normalize_clean (pyStrip raw) = L := Option.some.inj h
        refine ⟨?_, ?_, ?_, ?_⟩
        · intro habs
          rw [habs] at hL
          rw [hL] at hne
          simp at hne
        · rw [← hL]; exact (normalize_clean_shape _).1
        · rw [← hL]; exact (normalize_clean_shape _).2.1
        · rw [← hL]; exact (normalize_clean_shape _).2.2

/-- A clean line is a fixed point of the per-line normalizer. -/
theorem normalize_one_id {L : Str} (hne : L ≠ []) (hws : wsOk false L = true)
    (hh : headNotSpace L = true) (hl : lastNotSpace L = true)
    (hp : parenWrapped L = false)
    (hlt : L.any (fun c => beqC c '<') = false)
    (hamp : L.any (fun c => beqC c '&') = false) :
    normalize_one L = some L := by
  have hclean : normalize_clean L = L := by
    have h1 : (if (List.any L fun c => beqC c '<') = true then htmlTagSubSpace L else L) = L := by
      rw [hlt]; simp
    rw [normalize_clean, h1, hamp, if_neg (by simp)]
    rw [collapseWS, collapseAux_id hws, pyStrip_id hh hl]
  rw [normalize_one]
  rw [pyStrip_id hh hl]
  rw [if_neg (by simpa using hne), if_neg (by simp [hp])]
  rw [hclean]
  rw [if_neg (by simpa using hne)]

theorem break_ne_lf_cr {c : Char} (hc : isLineBreakC c = false) :
    c ≠ '\n' ∧ c ≠ '\r' := by
  constructor <;> intro habs <;> rw [habs] at hc <;> simp [isLineBreakC] at hc

theorem splitlinesCore_nobreak {l : Str} (h : ∀ c ∈ l, isLineBreakC c = false) :
    splitlinesCore l = [l] := by
  rw [splitlinesCore]
  induction l with
  | nil => rfl
  | cons c cs ih =>
    have hc := h c (by simp)
    obtain ⟨hn, hr⟩ := break_ne_lf_cr hc
    rw [splitlinesSM, if_neg hn, if_neg hr, if_neg (by simp [hc])]
    rw [ih (fun d hd => h d (by simp [hd]))]
    rfl

theorem splitlinesCore_append {l rest : Str} (h : ∀ c ∈ l, isLineBreakC c = false) :
    splitlinesCore (l ++ '\n' :: rest) = l :: splitlinesCore rest := by
  rw [splitlinesCore, splitlinesCore]
  induction l with
  | nil =>
    rw [List.nil_append, splitlinesSM, if_pos rfl]
    rw [if_neg (by simp)]
  | cons c cs ih =>
    have hc := h c (by simp)
    obtain ⟨hn, hr⟩ := break_ne_lf_cr hc
    rw [List.cons_append, splitlinesSM, if_neg hn, if_neg hr, if_neg (by simp [hc])]
    rw [ih (fun d hd => h d (by simp [hd]))]
    rfl

theorem splitlinesSM_ne_nil : ∀ (b : Bool) (s : Str), splitlinesSM b s ≠ [] := by
  intro b s
  induction s generalizing b with
  | nil => simp [splitlinesSM]
  | cons c cs ih =>
    rw [splitlinesSM]
    split
    · split
      · exact ih false
      · simp
    · split
      · simp
      · split
        · simp
        · rw [consSeg.eq_def]
          split <;> simp

theorem splitlinesCore_ne_nil (s : Str) : splitlinesCore s ≠ [] :=
  splitlinesSM_ne_nil false s

theorem splitlines_joinNL : ∀ (lines : List Str),
    (∀ l ∈ lines, l ≠ [] ∧ ∀ c ∈ l, isLineBreakC c = false) →
    pySplitlines (joinNL lines) = lines := by
  intro lines
  induction lines with
  | nil => intro _; rfl
  | cons l ls ih =>
    intro h
    cases ls with
    | nil =>
      rw [joinNL, pySplitlines, splitlinesCore_nobreak (h l (by simp)).2]
      rw [stripLastEmpty]
      rw [if_neg (by simpa using (h l (by simp)).1)]
    | cons l2 ls2 =>
      have hj : joinNL (l :: l2 :: ls2) = l ++ '\n' :: joinNL (l2 :: ls2) := rfl
      rw [hj]
      rw [pySplitlines, splitlinesCore_append (h l (by simp)).2]
      have ihr := ih (fun x hx => h x (by simp [List.mem_cons.mp hx]))
      rw [pySplitlines] at ihr
      cases hcore : splitlinesCore (joinNL (l2 :: ls2)) with
      | nil => exact absurd hcore (splitlinesCore_ne_nil _)
      | cons y ys =>
        calc stripLastEmpty (l :: y :: ys)
            = l :: stripLastEmpty (y :: ys) := rfl
          _ = l :: stripLastEmpty (splitlinesCore (joinNL (l2 :: ls2))) := by rw [hcore]
          _ = l :: (l2 :: ls2) := by rw [ihr]

theorem filterMap_id_of_some {lines : List Str}
    (h : ∀ l ∈ lines, normalize_one l = some l) :
    lines.filterMap normalize_one = lines := by
  induction lines with
  | nil => rfl
  | cons l ls ih =>
    rw [List.filterMap_cons, h l (by simp)]
    rw [ih (fun x hx => h x (by simp [hx]))]

theorem wsOk_no_break_line {L : Str} (hws : wsOk false L = true) :
    ∀ c ∈ L, isLineBreakC c = false :=
  wsOk_no_linebreak hws

/-- Counterexample to claim C7 as stated: on the input `"<b>(x)</b>"`
the normalizer emits the line `"(x)"`, which the second pass discards as
a parenthesized attribution line, so the normalizer is not idempotent. -/
theorem normalize_lines_not_idempotent :
    normalize_lines (lc "<b>(x)</b>") = [lc "(x)"] ∧
    normalize_lines (joinNL (normalize_lines (lc "<b>(x)</b>"))) = [] ∧
    normalize_lines (joinNL (normalize_lines (lc "<b>(x)</b>"))) ≠
      normalize_lines (lc "<b>(x)</b>") := by
  refine ⟨by decide, by decide, by decide⟩

/-- Claim C7 (amended): the Output Normalizer is idempotent on every
input whose normalized lines contain no `<` and no `&` and are not
parenthesis-wrapped; a normalized line can otherwise re-trigger tag
stripping, entity unescaping, or attribution-line removal on the second
pass (see `normalize_lines_not_idempotent`). -/
theorem normalize_lines_idempotent (text : Str)
    (hclean : ∀ L ∈ normalize_lines text,
      parenWrapped L = false ∧ L.any (fun c => beqC c '<') = false ∧
      L.any (fun c => beqC c '&') = false) :
    normalize_lines (joinNL (normalize_lines text)) = normalize_lines text := by
  have hshape : ∀ L ∈ normalize_lines text,
      L ≠ [] ∧ wsOk false L = true ∧ headNotSpace L = true ∧ lastNotSpace L = true := by
    intro L hL
    rw [normalize_lines] at hL
    obtain ⟨raw, _, hsome⟩ := List.mem_filterMap.mp hL
    exact normalize_one_shape hsome
  conv_lhs => rw [normalize_lines]
  rw [splitlines_joinNL (normalize_lines text) (fun l hl =>
    ⟨(hshape l hl).1, wsOk_no_break_line (hshape l hl).2.1⟩)]
  exact filterMap_id_of_some (fun l hl =>
    normalize_one_id (hshape l hl).1 (hshape l hl).2.1 (hshape l hl).2.2.1
      (hshape l hl).2.2.2 (hclean l hl).1 (hclean l hl).2.1 (hclean l hl).2.2)

/-- Witness for the amended C7 at a concrete input. -/
theorem normalize_lines_idempotent_witness :
    normalize_lines (joinNL (normalize_lines (lc "  In den <i>beginne</i>  \n(KJV)\n"))) =
      normalize_lines (lc "  In den <i>beginne</i>  \n(KJV)\n") :=
  normalize_lines_idempotent (lc "  In den <i>beginne</i>  \n(KJV)\n") (by decide)

/-- Drop a literal prefix, or fail. -/
def dropLit : Str → Str → Option Str
  | [], s => some s
  | _ :: _, [] => none
  | a :: as, b :: bs => if beqC a b then dropLit as bs else none

/-- A word with its lexicon (Strong) numbers (`WordWithStrongs`). -/
structure WordWithStrongs where
  text : Str
  strongs : List Str
  deriving Repr, DecidableEq

/-- One verse of Bible text (`VerseSegment`). -/
structure VerseSegment where
  book : Str
  chapter : Int
  verse : Int
  text : Str
  words : List WordWithStrongs
  deriving Repr, DecidableEq

/-- `str(i)` for a Python int. -/
def intToChars (i : Int) : Str :=
  if i < 0 then '-' :: natToChars (-i).toNat else natToChars i.toNat

/-- Anchored match of `strong:([GH]\d+)`, returning the captured number
and the rest. -/
def matchStrongAt (s : Str) : Option (Str × Str) :=
  match dropLit (lc "strong:") s with
  | none => none
  | some s1 =>
    match s1 with
    | c :: cs =>
      if beqC c 'G' || beqC c 'H' then
        let ds := spanP isDigitC cs
        if ds.1.isEmpty then none else some (c :: ds.1, ds.2)
      else none
    | [] => none

/-- `re.findall(r"strong:([GH]\d+)", savlm)`: fueled leftmost scan. -/
def strongsGo : Nat → Str → List Str
  | 0, _ => []
  | fuel + 1, s =>
    match s with
    | [] => []
    | c :: cs =>
      match matchStrongAt (c :: cs) with
      | some (num, rest) => num :: strongsGo fuel rest
      | none => strongsGo fuel cs

def strongs_num_findall (savlm : Str) : List Str := strongsGo savlm.length savlm

/-- Anchored match of the word tag regex
`<w\s+savlm="([^"]+)"[^>]*>([^<]+)</w>`: returns (savlm value, word
text, rest). -/
def matchW (s : Str) : Option (Str × Str × Str) :=
  match dropLit (lc "<w") s with
  | none => none
  | some s1 =>
    let wsp := spanP isSpaceC s1
    if wsp.1.isEmpty then none else
    match dropLit (lc "savlm=\"") wsp.2 with
    | none => none
    | some s2 =>
      let g1 := spanP (fun c => !beqC c '"') s2
      if g1.1.isEmpty then none else
      match g1.2 with
      | '"' :: s3 =>
        let attr := spanP (fun c => !beqC c '>') s3
        match attr.2 with
        | '>' :: s4 =>
          let g2 := spanP (fun c => !beqC c '<') s4
          if g2.1.isEmpty then none else
          match dropLit (lc "</w>") g2.2 with
          | none => none
          | some rest => some (g1.1, g2.1, rest)
        | _ => none
      | _ => none

/-- Leftmost word-tag match: (text before the match, savlm, word text,
rest after the match). -/
def findW : Str → Option (Str × Str × Str × Str)
  | [] => none
  | c :: cs =>
    match matchW (c :: cs) with
    | some (sv, w, rest) => some ([], sv, w, rest)
    | none =>
      match findW cs with
      | some (b, sv, w, rest) => some (c :: b, sv, w, rest)
      | none => none

/-- `finditer` over the word-tag regex (fueled): the list of
(gap before match, savlm, word text) triples and the trailing text. -/
def findAllW : Nat → Str → (List (Str × Str × Str)) × Str
  | 0, s => ([], s)
  | fuel + 1, s =>
    match findW s with
    | none => ([], s)
    | some (b, sv, w, rest) =>
      let r := findAllW fuel rest
      ((b, sv, w) :: r.1, r.2)

/-- Tag-strip, unescape, collapse, strip: the cleanup applied to text
between word tags. -/
def cleanSeg (s : Str) : Str := pyStrip (collapseWS (pyUnescape (htmlTagSubSpace s)))

/-- Assemble the plain-text parts and the word list from the word-tag
matches and the trailing text, in document order. -/
def swFold : List (Str × Str × Str) → Str → (List Str × List WordWithStrongs)
  | [], tail =>
    let ac := cleanSeg tail
    if ac.isEmpty then ([], [])
    else ([ac], (splitWS ac).map (fun w => ⟨w, []⟩))
  | (before, savlm, wtext) :: ms, tail =>
    let r := swFold ms tail
    let bc := cleanSeg before
    let bt : List Str × List WordWithStrongs :=
      if bc.isEmpty then ([], []) else ([bc], (splitWS bc).map (fun w => ⟨w, []⟩))
    let wt0 := pyStrip wtext
    let wt : List Str × List WordWithStrongs :=
      if wt0.isEmpty then ([], []) else ([wt0], [⟨wt0, strongs_num_findall savlm⟩])
    (bt.1 ++ wt.1 ++ r.1, bt.2 ++ wt.2 ++ r.2)

/-- `DiathekeBackend._parse_strongs_words`. -/
def parse_strongs_words (raw : Str) : Str × List WordWithStrongs :=
  let fa := findAllW raw.length raw
  let pw := swFold fa.1 fa.2
  (pyStrip (collapseWS (joinSpace pw.1)), pw.2)

/-- The tail of `_VERSE_PATTERN` after the lazy book group:
`\s+(\d+):(\d+)\s*[:\-]?\s*(.*)$`. -/
def matchVerseRest (s : Str) : Option (Str × Str × Str) :=
  let wsp := spanP isSpaceC s
  if wsp.1.isEmpty then none else
  let ds1 := spanP isDigitC wsp.2
  if ds1.1.isEmpty then none else
  match ds1.2 with
  | ':' :: s2 =>
    let ds2 := spanP isDigitC s2
    if ds2.1.isEmpty then none else
    let w2 := spanP isSpaceC ds2.2
    let s4 := match w2.2 with
      | c :: cs => if beqC c ':' || beqC c '-' then cs else w2.2
      | [] => w2.2
    some (ds1.1, ds2.1, (spanP isSpaceC s4).2)
  | _ => none

/-- `_VERSE_PATTERN` (`^([\w\s]+?)\s+(\d+):(\d+)\s*[:\-]?\s*(.*)$`):
the lazy book group grows one character at a time, trying the rest of
the pattern at each boundary. -/
def verseMatchAux : Str → Str → Option (Str × Str × Str × Str)
  | _, [] => none
  | revPre, c :: cs =>
    if isWordOrSpace c then
      match matchVerseRest cs with
      | some (ch, vs, txt) => some ((c :: revPre).reverse, ch, vs, txt)
      | none => verseMatchAux (c :: revPre) cs
    else none

def versePatternMatch (s : Str) : Option (Str × Str × Str × Str) :=
  verseMatchAux [] s

/-- `_LEADING_VERSE` (`^(\d+)[\.\:\s]+(.*)$`). -/
def leadingVerseMatch (s : Str) : Option (Str × Str) :=
  let ds := spanP isDigitC s
  if ds.1.isEmpty then none else
  let seps := spanP (fun c => beqC c '.' || beqC c ':' || isSpaceC c) ds.2
  if seps.1.isEmpty then none else some (ds.1, seps.2)

/-- Anchored match of the dynamically built reference pattern
`{re.escape(raw_book)}\s+{ch}:{verse}\s*[:\-]?\s*`: returns the rest of
the line after the match. -/
def refSearchAt (book chs vss : Str) (s : Str) : Option Str :=
  match dropLit book s with
  | none => none
  | some s1 =>
    let wsp := spanP isSpaceC s1
    if wsp.1.isEmpty then none else
    match dropLit chs wsp.2 with
    | none => none
    | some s2 =>
      match s2 with
      | ':' :: s3 =>
        match dropLit vss s3 with
        | none => none
        | some s4 =>
          let w1 := spanP isSpaceC s4
          let s5 := match w1.2 with
            | c :: cs => if beqC c ':' || beqC c '-' then cs else w1.2
            | [] => w1.2
          some (spanP isSpaceC s5).2
      | _ => none

/-- `re.search` of the reference pattern: leftmost position wins. -/
def refSearch (book chs vss : Str) : Str → Option Str
  | [] => refSearchAt book chs vss []
  | c :: cs =>
    match refSearchAt book chs vss (c :: cs) with
    | some rest => some rest
    | none => refSearch book chs vss cs

/-- Anchored match of `^\s*{verse}[\.\:\s]+` (branch-2 raw-text
recovery): returns the rest of the line after the match. -/
def versePrefixMatch (vss : Str) (s : Str) : Option Str :=
  let w := spanP isSpaceC s
  match dropLit vss w.2 with
  | none => none
  | some s1 =>
    let seps := spanP (fun c => beqC c '.' || beqC c ':' || isSpaceC c) s1
    if seps.1.isEmpty then none else some seps.2

/-- Raw-text recovery shared by both line shapes: when the raw-line
re-match succeeded, run the word-annotation sub-parser on the raw
remainder; otherwise fall back to the normalized text group with no
words. -/
def recover_text (fallbackTxt : Str) (searchResult : Option Str) :
    Str × List WordWithStrongs :=
  match searchResult with
  | some rawText => parse_strongs_words rawText
  | none => (pyStrip fallbackTxt, [])

/-- `DiathekeBackend._parse_lookup`, one raw line.  `.ok none` is a
skipped line; Python exceptions surface as `.error`. -/
def parse_lookup_line (book : Str) (chapter : Int) (raw_line : Str) :
    Except PyErr (Option VerseSegment) :=
  if parenWrapped raw_line then .ok none
  else
    let normalized := cleanSeg raw_line
    if normalized.isEmpty then .ok none
    else
      match versePatternMatch normalized with
      | some (bookGrp, chs, vss, txt) =>
        let raw_book := pyStrip bookGrp
        match pyInt chs with
        | .error e => .error e
        | .ok ch =>
        match pyInt vss with
        | .error e => .error e
        | .ok verse =>
          let seg_book :=
            match dictGet diathekeToCanon raw_book with
            | some b => b
            | none =>
              match resolve_alias raw_book with
              | some b => b
              | none => book
          let vt := recover_text txt
            (refSearch raw_book (intToChars ch) (intToChars verse) raw_line)
          .ok (if vt.1.isEmpty then none
               else some ⟨seg_book, ch, verse, vt.1, vt.2⟩)
      | none =>
        match leadingVerseMatch normalized with
        | some (vss, txt) =>
          match pyInt vss with
          | .error e => .error e
          | .ok verse =>
            let vt := recover_text txt (versePrefixMatch (intToChars verse) raw_line)
            .ok (if vt.1.isEmpty then none
                 else some ⟨book, chapter, verse, vt.1, vt.2⟩)
        | none => .ok none

def parse_lookup_lines (book : Str) (chapter : Int) :
    List Str → Except PyErr (List VerseSegment)
  | [] => .ok []
  | l :: ls =>
    match parse_lookup_line book chapter l with
    | .error e => .error e
    | .ok none => parse_lookup_lines book chapter ls
    | .ok (some seg) =>
      match parse_lookup_lines book chapter ls with
      | .error e => .error e
      | .ok segs => .ok (seg :: segs)

/-- `DiathekeBackend._parse_lookup`. -/
def parse_lookup (book : Str) (chapter : Int) (text : Str) :
    Except PyErr (List VerseSegment) :=
  let raw_lines := (pySplitlines text).filterMap (fun l =>
    let t := pyStrip l
    if t.isEmpty then none else some t)
  parse_lookup_lines book chapter raw_lines

theorem joinSpace_cons_ne {a : Str} {xs : List Str} (h : xs ≠ []) :
    joinSpace (a :: xs) = a ++ ' ' :: joinSpace xs := by
  cases xs with
  | nil => exact absurd rfl h
  | cons x xs2 => rfl

theorem joinSpace_append {xs ys : List Str} (hx : xs ≠ []) (hy : ys ≠ []) :
    joinSpace (xs ++ ys) = joinSpace xs ++ ' ' :: joinSpace ys := by
  induction xs with
  | nil => exact absurd rfl hx
  | cons x xs2 ih =>
    cases hxs2 : xs2 with
    | nil =>
      rw [List.cons_append, List.nil_append]
      rw [joinSpace_cons_ne hy, joinSpace]
    | cons x2 xs3 =>
      rw [List.cons_append]
      rw [joinSpace_cons_ne (by simp), joinSpace_cons_ne (by simp [hxs2])]
      rw [← hxs2, ih (by simp [hxs2])]
      simp

/-- Simultaneous split/join statement for `splitWSAux`: a pending word
prepends itself, and a clean string splits and rejoins to itself. -/
theorem splitWSAux_spec : ∀ (s : Str),
    (∀ cur : Str, cur ≠ [] → wsOk false s = true → lastNotSpace s = true →
      splitWSAux cur s ≠ [] ∧ joinSpace (splitWSAux cur s) = cur.reverse ++ s) ∧
    (wsOk false s = true → headNotSpace s = true → lastNotSpace s = true → s ≠ [] →
      splitWSAux [] s ≠ [] ∧ joinSpace (splitWSAux [] s) = s) := by
  intro s
  induction s with
  | nil =>
    constructor
    · intro cur hcur _ _
      rw [splitWSAux]
      rw [if_neg (by simpa using hcur)]
      exact ⟨by simp, by rw [joinSpace]; simp⟩
    · intro _ _ _ habs
      exact absurd rfl habs
  | cons c cs ih =>
    have hP := ih.1
    have hQ := ih.2
    constructor
    · intro cur hcur hws hlast
      simp only [wsOk, Bool.and_eq_true] at hws
      by_cases hsp : isSpaceC c = true
      · have h1 := hws.1
        rw [if_pos hsp, Bool.and_eq_true] at h1
        have hc : c = ' ' := beqC_iff.mp h1.1
        have hwstail := hws.2
        rw [h1.1] at hwstail
        have hcs_ne : cs ≠ [] := by
          intro habs
          rw [habs] at hlast
          simp only [lastNotSpace] at hlast
          rw [hsp] at hlast
          simp at hlast
        obtain ⟨d, cs2, rfl⟩ := List.exists_cons_of_ne_nil hcs_ne
        have hd : isSpaceC d = false := by
          cases hd2 : isSpaceC d with
          | false => rfl
          | true =>
            simp only [wsOk, Bool.and_eq_true] at hwstail
            have := hwstail.1
            rw [if_pos hd2, Bool.and_eq_true] at this
            simpa using this.2
        have hwsfalse : wsOk false (d :: cs2) = true := by
          rw [wsOk_flag_irrelevant hd false true]
          exact hwstail
        have hlast2 : lastNotSpace (d :: cs2) = true := by
          simpa [lastNotSpace] using hlast
        have hq := hQ hwsfalse (by simp [headNotSpace, hd]) hlast2 (by simp)
        rw [splitWSAux, if_pos hsp, if_neg (by simpa using hcur)]
        refine ⟨by simp, ?_⟩
        rw [joinSpace_cons_ne hq.1, hq.2]
        rw [hc]
      · rw [splitWSAux, if_neg hsp]
        have hwstail := hws.2
        rw [beqC_space_of_not_space (by simpa using hsp)] at hwstail
        cases cs with
        | nil =>
          rw [splitWSAux]
          rw [if_neg (by simp)]
          refine ⟨by simp, ?_⟩
          rw [joinSpace]
          simp
        | cons d cs2 =>
          have hlast2 : lastNotSpace (d :: cs2) = true := by
            simpa [lastNotSpace] using hlast
          have hp := hP (c :: cur) (by simp) hwstail hlast2
          refine ⟨hp.1, ?_⟩
          rw [hp.2]
          simp
    · intro hws hhead hlast hne
      have hc : isSpaceC c = false := by
        simpa [headNotSpace] using hhead
      rw [splitWSAux, if_neg (by simp [hc])]
      simp only [wsOk, Bool.and_eq_true] at hws
      have hwstail := hws.2
      rw [beqC_space_of_not_space hc] at hwstail
      cases cs with
      | nil =>
        rw [splitWSAux, if_neg (by simp)]
        refine ⟨by simp, ?_⟩
        rw [joinSpace]
        simp
      | cons d cs2 =>
        have hlast2 : lastNotSpace (d :: cs2) = true := by
          simpa [lastNotSpace] using hlast
        have hp := hP [c] (by simp) hwstail hlast2
        refine ⟨hp.1, ?_⟩
        rw [hp.2]
        simp

/-- A nonempty clean string splits into nonempty words that rejoin to
the same string. -/
theorem splitWS_join {s : Str} (hws : wsOk false s = true)
    (hhead : headNotSpace s = true) (hlast : lastNotSpace s = true) (hne : s ≠ []) :
    splitWS s ≠ [] ∧ joinSpace (splitWS s) = s :=
  (splitWSAux_spec s).2 hws hhead hlast hne

theorem cleanSeg_shape (x : Str) :
    wsOk false (cleanSeg x) = true ∧ headNotSpace (cleanSeg x) = true ∧
    lastNotSpace (cleanSeg x) = true := by
  rw [cleanSeg]
  exact strip_collapse_shape _

/-- Joining two aligned piece lists commutes with concatenation. -/
theorem join_pieces {w1 w2 : List WordWithStrongs} {p1 p2 : List Str}
    (h1 : joinSpace (w1.map (fun w => w.text)) = joinSpace p1)
    (e1 : w1 = [] ↔ p1 = [])
    (h2 : joinSpace (w2.map (fun w => w.text)) = joinSpace p2)
    (e2 : w2 = [] ↔ p2 = []) :
    joinSpace ((w1 ++ w2).map (fun w => w.text)) = joinSpace (p1 ++ p2) ∧
    (w1 ++ w2 = [] ↔ p1 ++ p2 = []) := by
  by_cases hw1 : w1 = []
  · have hp1 : p1 = [] := e1.mp hw1
    subst hw1 hp1
    simpa using ⟨h2, e2⟩
  · have hp1 : p1 ≠ [] := fun h => hw1 (e1.mpr h)
    by_cases hw2 : w2 = []
    · have hp2 : p2 = [] := e2.mp hw2
      subst hw2 hp2
      simpa using ⟨h1, e1⟩
    · have hp2 : p2 ≠ [] := fun h => hw2 (e2.mpr h)
      rw [List.map_append]
      rw [joinSpace_append (by simpa using hw1) (by simpa using hw2)]
      rw [joinSpace_append hp1 hp2]
      rw [h1, h2]
      constructor
      · rfl
      · simp [hw1, hp1]

/-- The word texts of `swFold` join to the same string as its parts. -/
theorem swFold_join : ∀ (ms : List (Str × Str × Str)) (tail : Str),
    joinSpace ((swFold ms tail).2.map (fun w => w.text)) = joinSpace (swFold ms tail).1 ∧
    ((swFold ms tail).2 = [] ↔ (swFold ms tail).1 = []) := by
  intro ms
  induction ms with
  | nil =>
    intro tail
    rw [swFold]
    split
    · simp
    · rename_i hne
      have hsh := cleanSeg_shape tail
      have hsj := splitWS_join hsh.1 hsh.2.1 hsh.2.2 (by simpa using hne)
      simp only [List.map_map]
      constructor
      · rw [show ((fun w : WordWithStrongs => w.text) ∘ fun w => (⟨w, []⟩ : WordWithStrongs)) = id from rfl]
        rw [List.map_id]
        rw [hsj.2, joinSpace]
      · simp [hsj.1]
  | cons m ms2 ih =>
    intro tail
    obtain ⟨before, savlm, wtext⟩ := m
    rw [swFold]
    simp only []
    have hbt : joinSpace ((if (cleanSeg before).isEmpty then (([], []) : List Str × List WordWithStrongs)
        else ([cleanSeg before], (splitWS (cleanSeg before)).map (fun w => ⟨w, []⟩))).2.map (fun w => w.text)) =
        joinSpace (if (cleanSeg before).isEmpty then (([], []) : List Str × List WordWithStrongs)
        else ([cleanSeg before], (splitWS (cleanSeg before)).map (fun w => ⟨w, []⟩))).1 ∧
        ((if (cleanSeg before).isEmpty then (([], []) : List Str × List WordWithStrongs)
        else ([cleanSeg before], (splitWS (cleanSeg before)).map (fun w => ⟨w, []⟩))).2 = [] ↔
        (if (cleanSeg before).isEmpty then (([], []) : List Str × List WordWithStrongs)
        else ([cleanSeg before], (splitWS (cleanSeg before)).map (fun w => ⟨w, []⟩))).1 = []) := by
      split
      · simp
      · rename_i hne
        have hsh := cleanSeg_shape before
        have hsj := splitWS_join hsh.1 hsh.2.1 hsh.2.2 (by simpa using hne)
        simp only [List.map_map]
        constructor
        · rw [show ((fun w : WordWithStrongs => w.text) ∘ fun w => (⟨w, []⟩ : WordWithStrongs)) = id from rfl]
          rw [List.map_id]
          rw [hsj.2, joinSpace]
        · simp [hsj.1]
    have hwt : joinSpace ((if (pyStrip wtext).isEmpty then (([], []) : List Str × List WordWithStrongs)
        else ([pyStrip wtext], [⟨pyStrip wtext, strongs_num_findall savlm⟩])).2.map (fun w => w.text)) =
        joinSpace (if (pyStrip wtext).isEmpty then (([], []) : List Str × List WordWithStrongs)
        else ([pyStrip wtext], [⟨pyStrip wtext, strongs_num_findall savlm⟩])).1 ∧
        ((if (pyStrip wtext).isEmpty then (([], []) : List Str × List WordWithStrongs)
        else ([pyStrip wtext], [⟨pyStrip wtext, strongs_num_findall savlm⟩])).2 = [] ↔
        (if (pyStrip wtext).isEmpty then (([], []) : List Str × List WordWithStrongs)
        else ([pyStrip wtext], [⟨pyStrip wtext, strongs_num_findall savlm⟩])).1 = []) := by
      split
      · simp
      · simp [joinSpace]
    have hr := ih tail
    have step1 := join_pieces hwt.1 hwt.2 hr.1 hr.2
    have step2 := join_pieces hbt.1 hbt.2 step1.1 step1.2
    simpa [List.append_assoc] using step2

/-- `_parse_strongs_words` invariant: single-space joining of the word
texts, then whitespace collapsing and trimming, recovers the plain
text. -/
theorem parse_strongs_words_invariant (raw : Str) :
    pyStrip (collapseWS (joinSpace ((parse_strongs_words raw).2.map (fun w => w.text)))) =
      (parse_strongs_words raw).1 := by
  rw [parse_strongs_words]
  simp only []
  rw [(swFold_join (findAllW raw.length raw).1 (findAllW raw.length raw).2).1]

theorem recover_text_inv (txt : Str) (r : Option Str) :
    (recover_text txt r).2 = [] ∨
    pyStrip (collapseWS (joinSpace ((recover_text txt r).2.map (fun w => w.text)))) =
      (recover_text txt r).1 := by
  cases r with
  | none => exact Or.inl rfl
  | some rawText => exact Or.inr (parse_strongs_words_invariant rawText)

theorem parse_lookup_line_inv {book : Str} {chapter : Int} {l : Str} {seg : VerseSegment}
    (h : parse_lookup_line book chapter l = .ok (some seg)) :
    seg.words = [] ∨
    pyStrip (collapseWS (joinSpace (seg.words.map (fun w => w.text)))) = seg.text := by
  rw [parse_lookup_line] at h
  split at h
  · simp at h
  · simp only [] at h
    split at h
    · simp at h
    · split at h
      · rename_i bookGrp chs vss txt hvp
        split at h
        · simp at h
        · rename_i ch hch
          split at h
          · simp at h
          · rename_i verse hvs
            simp only [Except.ok.injEq] at h
            split at h
            · simp at h
            · simp only [Option.some.injEq] at h
              have hw : seg.words = (recover_text txt
                  (refSearch (pyStrip bookGrp) (intToChars ch) (intToChars verse) l)).2 := by
                rw [← h]
              have ht : seg.text = (recover_text txt
                  (refSearch (pyStrip bookGrp) (intToChars ch) (intToChars verse) l)).1 := by
                rw [← h]
              rw [hw, ht]
              exact recover_text_inv _ _
      · split at h
        · rename_i vss txt hlv
          split at h
          · simp at h
          · rename_i verse hvs
            simp only [Except.ok.injEq] at h
            split at h
            · simp at h
            · simp only [Option.some.injEq] at h
              have hw : seg.words = (recover_text txt
                  (versePrefixMatch (intToChars verse) l)).2 := by
                rw [← h]
              have ht : seg.text = (recover_text txt
                  (versePrefixMatch (intToChars verse) l)).1 := by
                rw [← h]
              rw [hw, ht]
              exact recover_text_inv _ _
        · simp at h

/-- Claim C1 (amended): for every VerseSegment the parser emits with a
non-empty word list (the word-annotation sub-parser ran), joining the
word texts with single spaces and collapsing/trimming whitespace
recovers the segment text.  Segments built through the normalized-text
fallback carry an empty word list and are exempt (see
`parse_lookup_invariant_fails`). -/
theorem parse_lookup_words_invariant (book : Str) (chapter : Int) (text : Str)
    (segs : List VerseSegment) (h : parse_lookup book chapter text = .ok segs) :
    ∀ seg ∈ segs, seg.words ≠ [] →
      pyStrip (collapseWS (joinSpace (seg.words.map (fun w => w.text)))) = seg.text := by
  rw [parse_lookup] at h
  revert segs
  generalize (pySplitlines text).filterMap (fun l =>
    let t := pyStrip l
    if t.isEmpty then none else some t) = lines
  induction lines with
  | nil =>
    intro segs h
    rw [parse_lookup_lines] at h
    simp only [Except.ok.injEq] at h
    subst h
    intro seg hseg
    simp at hseg
  | cons l ls ih =>
    intro segs h
    rw [parse_lookup_lines] at h
    split at h
    · simp at h
    · exact ih _ h
    · rename_i seg1 hline
      split at h
      · simp at h
      · rename_i segs2 hrest
        simp only [Except.ok.injEq] at h
        subst h
        intro seg hseg hw
        rcases List.mem_cons.mp hseg with rfl | hmem
        · rcases parse_lookup_line_inv hline with h0 | h0
          · exact absurd h0 hw
          · exact h0
        · exact ih segs2 hrest seg hmem hw

/-- Counterexample to claim C1 as stated: on the line `"01 In"` the
leading-verse shape matches the normalized line (verse `1`), but the
dynamically built raw-line pattern `^\s*1[\.\:\s]+` does not match the
raw text `"01 ..."`, so the parser emits a segment whose text is `"In"`
while its word list is empty; joining no words cannot reproduce the
text. -/
theorem parse_lookup_invariant_fails :
    parse_lookup (lc "Genesis") 1 (lc "01 In") =
      .ok [⟨lc "Genesis", 1, 1, lc "In", []⟩] ∧
    pyStrip (collapseWS (joinSpace (([] : List WordWithStrongs).map (fun w => w.text)))) ≠
      lc "In" := by
  constructor
  · decide
  · decide

/-- Witness for the amended C1 on a line whose raw re-match succeeds. -/
theorem parse_lookup_words_invariant_witness :
    pyStrip (collapseWS (joinSpace
      (([⟨lc "In", []⟩, ⟨lc "den", []⟩, ⟨lc "beginne", []⟩] : List WordWithStrongs).map
        (fun w => w.text)))) = lc "In den beginne" := by
  have h := parse_lookup_words_invariant (lc "Genesis") 1
    (lc "Genesis 1:1: In den beginne")
    [⟨lc "Genesis", 1, 1, lc "In den beginne",
      [⟨lc "In", []⟩, ⟨lc "den", []⟩, ⟨lc "beginne", []⟩]⟩]
    (by decide)
    ⟨lc "Genesis", 1, 1, lc "In den beginne",
      [⟨lc "In", []⟩, ⟨lc "den", []⟩, ⟨lc "beginne", []⟩]⟩
    (by simp) (by simp)
  exact h

/-- A cross-reference to another verse (`CrossReference`). -/
structure CrossReference where
  book : Str
  chapter : Int
  verse : Int
  verse_end : Option Int := none
  preview : Str := []
  deriving Repr, DecidableEq

/-- `CrossReference.reference`: `"{book} {chapter}:{verse}"`, with
`-{verse_end}` appended when `verse_end` is truthy and differs from
`verse`. -/
def CrossReference.reference (r : CrossReference) : Str :=
  match r.verse_end with
  | some ve =>
    if ve ≠ 0 ∧ ve ≠ r.verse then
      r.book ++ ' ' :: intToChars r.chapter ++ ':' :: intToChars r.verse ++
        '-' :: intToChars ve
    else
      r.book ++ ' ' :: intToChars r.chapter ++ ':' :: intToChars r.verse
  | none => r.book ++ ' ' :: intToChars r.chapter ++ ':' :: intToChars r.verse

/-- `_BOOK_ABBREVS` (unique keys, so plain first-match lookup agrees
with the Python dict literal). -/
def bookAbbrevs : List (Str × Str) := [
  (lc "Joh", lc "John"),
  (lc "Jo", lc "John"),
  (lc "Jn", lc "John"),
  (lc "1Jo", lc "1 John"),
  (lc "1Jn", lc "1 John"),
  (lc "1 Jo", lc "1 John"),
  (lc "2Jo", lc "2 John"),
  (lc "2Jn", lc "2 John"),
  (lc "2 Jo", lc "2 John"),
  (lc "3Jo", lc "3 John"),
  (lc "3Jn", lc "3 John"),
  (lc "3 Jo", lc "3 John"),
  (lc "Ro", lc "Romans"),
  (lc "Rom", lc "Romans"),
  (lc "1Co", lc "1 Corinthians"),
  (lc "1Cor", lc "1 Corinthians"),
  (lc "2Co", lc "2 Corinthians"),
  (lc "2Cor", lc "2 Corinthians"),
  (lc "Ga", lc "Galatians"),
  (lc "Gal", lc "Galatians"),
  (lc "Eph", lc "Ephesians"),
  (lc "Ep", lc "Ephesians"),
  (lc "Php", lc "Philippians"),
  (lc "Phil", lc "Philippians"),
  (lc "Col", lc "Colossians"),
  (lc "1Th", lc "1 Thessalonians"),
  (lc "1Thes", lc "1 Thessalonians"),
  (lc "2Th", lc "2 Thessalonians"),
  (lc "2Thes", lc "2 Thessalonians"),
  (lc "1Ti", lc "1 Timothy"),
  (lc "1Tim", lc "1 Timothy"),
  (lc "2Ti", lc "2 Timothy"),
  (lc "2Tim", lc "2 Timothy"),
  (lc "Tit", lc "Titus"),
  (lc "Phm", lc "Philemon"),
  (lc "Phlm", lc "Philemon"),
  (lc "Heb", lc "Hebrews"),
  (lc "Hebr", lc "Hebrews"),
  (lc "Jas", lc "James"),
  (lc "Jam", lc "James"),
  (lc "1Pe", lc "1 Peter"),
  (lc "1Pet", lc "1 Peter"),
  (lc "1Pt", lc "1 Peter"),
  (lc "2Pe", lc "2 Peter"),
  (lc "2Pet", lc "2 Peter"),
  (lc "2Pt", lc "2 Peter"),
  (lc "Jude", lc "Jude"),
  (lc "Jud", lc "Jude"),
  (lc "Re", lc "Revelation"),
  (lc "Rev", lc "Revelation"),
  (lc "Mt", lc "Matthew"),
  (lc "Matt", lc "Matthew"),
  (lc "Mat", lc "Matthew"),
  (lc "Mk", lc "Mark"),
  (lc "Mar", lc "Mark"),
  (lc "Lk", lc "Luke"),
  (lc "Luk", lc "Luke"),
  (lc "Lu", lc "Luke"),
  (lc "Ac", lc "Acts"),
  (lc "Act", lc "Acts"),
  (lc "Ge", lc "Genesis"),
  (lc "Gen", lc "Genesis"),
  (lc "Ex", lc "Exodus"),
  (lc "Exo", lc "Exodus"),
  (lc "Le", lc "Leviticus"),
  (lc "Lev", lc "Leviticus"),
  (lc "Nu", lc "Numbers"),
  (lc "Num", lc "Numbers"),
  (lc "De", lc "Deuteronomy"),
  (lc "Deu", lc "Deuteronomy"),
  (lc "Dt", lc "Deuteronomy"),
  (lc "Jos", lc "Joshua"),
  (lc "Josh", lc "Joshua"),
  (lc "Jdg", lc "Judges"),
  (lc "Judg", lc "Judges"),
  (lc "Ru", lc "Ruth"),
  (lc "1Sa", lc "1 Samuel"),
  (lc "1Sam", lc "1 Samuel"),
  (lc "2Sa", lc "2 Samuel"),
  (lc "2Sam", lc "2 Samuel"),
  (lc "1Ki", lc "1 Kings"),
  (lc "1Kg", lc "1 Kings"),
  (lc "2Ki", lc "2 Kings"),
  (lc "2Kg", lc "2 Kings"),
  (lc "1Ch", lc "1 Chronicles"),
  (lc "1Chr", lc "1 Chronicles"),
  (lc "2Ch", lc "2 Chronicles"),
  (lc "2Chr", lc "2 Chronicles"),
  (lc "Ezr", lc "Ezra"),
  (lc "Ne", lc "Nehemiah"),
  (lc "Neh", lc "Nehemiah"),
  (lc "Es", lc "Esther"),
  (lc "Est", lc "Esther"),
  (lc "Job", lc "Job"),
  (lc "Ps", lc "Psalms"),
  (lc "Psa", lc "Psalms"),
  (lc "Psalm", lc "Psalms"),
  (lc "Pr", lc "Proverbs"),
  (lc "Pro", lc "Proverbs"),
  (lc "Prov", lc "Proverbs"),
  (lc "Ec", lc "Ecclesiastes"),
  (lc "Ecc", lc "Ecclesiastes"),
  (lc "So", lc "Song of Solomon"),
  (lc "Song", lc "Song of Solomon"),
  (lc "SoS", lc "Song of Solomon"),
  (lc "Isa", lc "Isaiah"),
  (lc "Is", lc "Isaiah"),
  (lc "Jer", lc "Jeremiah"),
  (lc "Je", lc "Jeremiah"),
  (lc "La", lc "Lamentations"),
  (lc "Lam", lc "Lamentations"),
  (lc "Eze", lc "Ezekiel"),
  (lc "Ezk", lc "Ezekiel"),
  (lc "Ez", lc "Ezekiel"),
  (lc "Da", lc "Daniel"),
  (lc "Dan", lc "Daniel"),
  (lc "Ho", lc "Hosea"),
  (lc "Hos", lc "Hosea"),
  (lc "Joe", lc "Joel"),
  (lc "Am", lc "Amos"),
  (lc "Amo", lc "Amos"),
  (lc "Ob", lc "Obadiah"),
  (lc "Oba", lc "Obadiah"),
  (lc "Jon", lc "Jonah"),
  (lc "Mic", lc "Micah"),
  (lc "Mi", lc "Micah"),
  (lc "Na", lc "Nahum"),
  (lc "Nah", lc "Nahum"),
  (lc "Hab", lc "Habakkuk"),
  (lc "Zep", lc "Zephaniah"),
  (lc "Zeph", lc "Zephaniah"),
  (lc "Hag", lc "Haggai"),
  (lc "Zec", lc "Zechariah"),
  (lc "Zech", lc "Zechariah"),
  (lc "Mal", lc "Malachi")
]

/-- The character class `[-â€“]` of `_REF_PATTERN` (the source file holds
the mojibake bytes of an en dash next to the plain hyphen). -/
def dashClass (c : Char) : Bool :=
  beqC c '-' || beqC c 'â' || beqC c '€' || beqC c '“'

/-- Tail of `_REF_PATTERN` after the book group:
`\s*(\d+)\s*[:.]\s*(\d+)(?:\s*[-â€“]\s*(\d+))?`. -/
def refTail (r : Str) : Option (Str × Str × Option Str × Str) :=
  let w := spanP isSpaceC r
  let ds1 := spanP isDigitC w.2
  if ds1.1.isEmpty then none else
  let w2 := spanP isSpaceC ds1.2
  match w2.2 with
  | c :: r2 =>
    if beqC c ':' || beqC c '.' then
      let w3 := spanP isSpaceC r2
      let ds2 := spanP isDigitC w3.2
      if ds2.1.isEmpty then none else
      let w4 := spanP isSpaceC ds2.2
      match w4.2 with
      | d :: r3 =>
        if dashClass d then
          let w5 := spanP isSpaceC r3
          let ds3 := spanP isDigitC w5.2
          if ds3.1.isEmpty then some (ds1.1, ds2.1, none, ds2.2)
          else some (ds1.1, ds2.1, some ds3.1, ds3.2)
        else some (ds1.1, ds2.1, none, ds2.2)
      | [] => some (ds1.1, ds2.1, none, ds2.2)
    else none
  | [] => none

/-- Book group and tail of `_REF_PATTERN` anchored at a position:
`((?:\d\s+)?[A-Za-z]+(?:\s+[A-Za-z]+)?)` followed by `refTail`.  The
optional second word is tried greedily and dropped if the tail then
fails, mirroring the regex backtracking (word runs are maximal, so no
other backtracking is possible). -/
def matchRefCore (pre : Str) (r : Str) : Option (Str × Str × Str × Option Str × Str) :=
  let L1 := spanP isAsciiLetter r
  if L1.1.isEmpty then none else
  let wsp := spanP isSpaceC L1.2
  let second :=
    if wsp.1.isEmpty then none
    else
      let L2 := spanP isAsciiLetter wsp.2
      if L2.1.isEmpty then none
      else
        match refTail L2.2 with
        | some (ch, vs, ve, rest) =>
          some (pre ++ L1.1 ++ wsp.1 ++ L2.1, ch, vs, ve, rest)
        | none => none
  match second with
  | some res => some res
  | none =>
    match refTail L1.2 with
    | some (ch, vs, ve, rest) => some (pre ++ L1.1, ch, vs, ve, rest)
    | none => none

def matchRefAt : Str → Option (Str × Str × Str × Option Str × Str)
  | [] => none
  | c :: cs =>
    if isDigitC c then
      let wsp := spanP isSpaceC cs
      if wsp.1.isEmpty then none
      else matchRefCore (c :: wsp.1) wsp.2
    else matchRefCore [] (c :: cs)

/-- `finditer` over `_REF_PATTERN` (fueled leftmost scan). -/
def refScanGo : Nat → Str → List (Str × Str × Str × Option Str)
  | 0, _ => []
  | fuel + 1, s =>
    match s with
    | [] => []
    | c :: cs =>
      match matchRefAt (c :: cs) with
      | some (b, ch, vs, ve, rest) => (b, ch, vs, ve) :: refScanGo fuel rest
      | none => refScanGo fuel cs

def findAllRefs (s : Str) : List (Str × Str × Str × Option Str) :=
  refScanGo s.length s

/-- Book resolution of `_parse_plain_refs`: fixed abbreviation table,
then engine-token reverse table, then alias resolver, else the raw
token. -/
def resolve_plain_bookM (dmap amap : List (Str × Str)) (raw_book : Str) : Str :=
  match dictGet bookAbbrevs raw_book with
  | some b => b
  | none =>
    match dictGet dmap raw_book with
    | some b => b
    | none =>
      match resolve_alias_core amap raw_book true with
      | some b => b
      | none => raw_book

def resolve_plain_book (raw_book : Str) : Str :=
  resolve_plain_bookM diathekeToCanon aliasMap raw_book

/-- Dedup-and-emit loop of `_parse_plain_refs` (`seen` keyed on the
full `(book, chapter, verse, verse_end)` tuple). -/
def pprGo (dmap amap : List (Str × Str)) :
    List (Str × Str × Str × Option Str) →
    List (Str × Int × Int × Option Int) → Except PyErr (List CrossReference)
  | [], _ => .ok []
  | (b, chs, vss, veo) :: ms, seen =>
    match pyInt chs with
    | .error e => .error e
    | .ok ch =>
    match pyInt vss with
    | .error e => .error e
    | .ok vs =>
    match (match veo with
           | some ves => (pyInt ves).map some
           | none => .ok (none : Option Int)) with
    | .error e => .error e
    | .ok ve =>
      let raw_book := pyStrip b
      let book := resolve_plain_bookM dmap amap raw_book
      let key : Str × Int × Int × Option Int := (book, ch, vs, ve)
      if seen.any (fun k => beqStr k.1 key.1 && k.2.1 = key.2.1 &&
          k.2.2.1 = key.2.2.1 && k.2.2.2 = key.2.2.2) then
        pprGo dmap amap ms seen
      else
        match pprGo dmap amap ms (key :: seen) with
        | .error e => .error e
        | .ok refs => .ok (⟨book, ch, vs, ve, []⟩ :: refs)

/-- `CrossRefBackend._parse_plain_refs`, parameterized by the two
resolution tables (instantiated with the built tables below). -/
def parse_plain_refsM (dmap amap : List (Str × Str)) (output : Str) :
    Except PyErr (List CrossReference) :=
  let clean := htmlTagSubSpace output
  pprGo dmap amap (findAllRefs clean) []

/-- `CrossRefBackend._parse_plain_refs`. -/
def parse_plain_refs (output : Str) : Except PyErr (List CrossReference) :=
  parse_plain_refsM diathekeToCanon aliasMap output

theorem parse_plain_refs_lit (s : Str) :
    parse_plain_refs s = parse_plain_refsM diathekeToCanonLit aliasMapLit s := by
  rw [parse_plain_refs, diathekeToCanon_eq, aliasMap_eq]

theorem letter_not_digit {c : Char} (h : isAsciiLetter c = true) :
    isDigitC c = false := by
  simp [isAsciiLetter] at h
  simp [isDigitC]
  omega

theorem letter_not_space {c : Char} (h : isAsciiLetter c = true) :
    isSpaceC c = false := by
  simp [isAsciiLetter] at h
  simp [isSpaceC]
  omega

theorem digit_not_letter {c : Char} (h : isDigitC c = true) :
    isAsciiLetter c = false := by
  simp [isDigitC] at h
  simp [isAsciiLetter]
  omega

theorem letter_ne_lt {c : Char} (h : isAsciiLetter c = true) : c ≠ '<' := by
  intro he
  rw [he] at h
  exact absurd h (by decide)

theorem digit_ne_lt {c : Char} (h : isDigitC c = true) : c ≠ '<' := by
  intro he
  rw [he] at h
  exact absurd h (by decide)

theorem digit_not_dash {c : Char} (h : isDigitC c = true) :
    dashClass c = false := by
  simp only [isDigitC, Bool.and_eq_true, decide_eq_true_eq] at h
  have h1 : Char.toNat '-' = 45 := rfl
  have h2 : Char.toNat 'â' = 226 := rfl
  have h3 : Char.toNat '€' = 8364 := rfl
  have h4 : Char.toNat '“' = 8220 := rfl
  simp only [dashClass, beqC, h1, h2, h3, h4, Bool.or_eq_false_iff, beq_eq_false_iff_ne,
    ne_eq]
  omega

/-- The first character of `r`, if any, fails `p` (so a `spanP p` scan
stops at the front of `r`). -/
def headP (p : Char → Bool) : Str → Prop
  | [] => True
  | c :: _ => p c = false

theorem headP_of_all_q (p q : Char → Bool) {r : Str}
    (hpq : ∀ c, q c = true → p c = false)
    (hall : ∀ c ∈ r, q c = true) (hne : r ≠ []) (t : Str) :
    headP p (r ++ t) := by
  cases r with
  | nil => exact absurd rfl hne
  | cons c cs => exact hpq c (hall c (by simp))

theorem spanP_split (p : Char → Bool) : ∀ (w r : Str),
    (∀ c ∈ w, p c = true) → headP p r → spanP p (w ++ r) = (w, r) := by
  intro w
  induction w with
  | nil =>
    intro r _ hr
    cases r with
    | nil => rfl
    | cons c cs =>
      have hc : p c = false := hr
      simp [spanP, hc]
  | cons a as ih =>
    intro r hw hr
    have ha : p a = true := hw a (by simp)
    have hrec := ih r (fun c hc => hw c (by simp [hc])) hr
    simp [spanP, ha, hrec]

theorem tagSubSM_none_id (rep : Str) : ∀ s : Str,
    (∀ c ∈ s, c ≠ '<') → tagSubSM rep none s = s := by
  intro s
  induction s with
  | nil => intro _; rfl
  | cons c cs ih =>
    intro h
    have hc : c ≠ '<' := h c (by simp)
    have hrec := ih (fun d hd => h d (by simp [hd]))
    simp [tagSubSM, hc, hrec]

/-- Suffix contributed by the optional `verse_end` group. -/
def veTail : Option Str → Str
  | some v => '-' :: v
  | none => []

/-- Book names that the book group of `_REF_PATTERN` consumes exactly:
a nonempty run of ASCII letters, or one digit, one space and such a
run.  The ten canonical names with accented characters fail this. -/
def asciiBookShape : Str → Bool
  | [] => false
  | c :: cs =>
    if isDigitC c then
      match cs with
      | sp :: w => sp == ' ' && !w.isEmpty && w.all isAsciiLetter
      | [] => false
    else isAsciiLetter c && cs.all isAsciiLetter

theorem refTail_wellformed (chs vss : Str) (veo : Option Str)
    (hch : chs ≠ []) (hchd : ∀ c ∈ chs, isDigitC c = true)
    (hvs : vss ≠ []) (hvsd : ∀ c ∈ vss, isDigitC c = true)
    (hveo : ∀ v, veo = some v → v ≠ [] ∧ ∀ c ∈ v, isDigitC c = true) :
    refTail (' ' :: (chs ++ ':' :: (vss ++ veTail veo))) = some (chs, vss, veo, []) := by
  have h1 : spanP isSpaceC (' ' :: (chs ++ ':' :: (vss ++ veTail veo))) =
      ([' '], chs ++ ':' :: (vss ++ veTail veo)) := by
    have := spanP_split isSpaceC [' '] (chs ++ ':' :: (vss ++ veTail veo))
      (by intro c hc; simp at hc; subst hc; decide)
      (headP_of_all_q isSpaceC isDigitC (fun _ h => digit_not_space h) hchd hch _)
    simpa using this
  have h2 : spanP isDigitC (chs ++ ':' :: (vss ++ veTail veo)) =
      (chs, ':' :: (vss ++ veTail veo)) := by
    have := spanP_split isDigitC chs (':' :: (vss ++ veTail veo)) hchd
      (by show isDigitC _ = false; decide)
    simpa using this
  have h3 : spanP isSpaceC (':' :: (vss ++ veTail veo)) =
      ([], ':' :: (vss ++ veTail veo)) := by
    have := spanP_split isSpaceC [] (':' :: (vss ++ veTail veo))
      (by intro c hc; simp at hc) (by show isSpaceC _ = false; decide)
    simpa using this
  have h4 : spanP isSpaceC (vss ++ veTail veo) = ([], vss ++ veTail veo) := by
    have := spanP_split isSpaceC [] (vss ++ veTail veo)
      (by intro c hc; simp at hc)
      (headP_of_all_q isSpaceC isDigitC (fun _ h => digit_not_space h) hvsd hvs _)
    simpa using this
  have hchE : chs.isEmpty = false := by
    cases chs with
    | nil => exact absurd rfl hch
    | cons a as => rfl
  have hvsE : vss.isEmpty = false := by
    cases vss with
    | nil => exact absurd rfl hvs
    | cons a as => rfl
  cases veo with
  | none =>
    have h5 : spanP isDigitC (vss ++ veTail none) = (vss, []) := by
      have := spanP_split isDigitC vss [] hvsd (by trivial)
      simpa [veTail] using this
    simp [refTail, h1, h2, h3, h4, h5, hchE, hvsE, beqC]
    simp [spanP]
  | some v =>
    obtain ⟨hvne, hvd⟩ := hveo v rfl
    have h5 : spanP isDigitC (vss ++ veTail (some v)) = (vss, '-' :: v) := by
      have := spanP_split isDigitC vss ('-' :: v) hvsd
        (by show isDigitC _ = false; decide)
      simpa [veTail] using this
    have h6 : spanP isSpaceC v = ([], v) := by
      have := spanP_split isSpaceC [] v (by intro c hc; simp at hc)
        (by cases v with
            | nil => trivial
            | cons a as => exact digit_not_space (hvd a (by simp)))
      simpa using this
    have h7 : spanP isDigitC v = (v, []) := by
      have := spanP_split isDigitC v [] hvd (by trivial)
      simpa using this
    have hvE : v.isEmpty = false := by
      cases v with
      | nil => exact absurd rfl hvne
      | cons a as => rfl
    have h8 : spanP isSpaceC ('-' :: v) = ([], '-' :: v) := by
      have := spanP_split isSpaceC [] ('-' :: v) (by intro c hc; simp at hc)
        (by show isSpaceC _ = false; decide)
      simpa using this
    simp [refTail, h1, h2, h3, h4, h5, h6, h7, h8, hchE, hvsE, hvE, beqC, dashClass]

theorem matchRefCore_wellformed (pre w chs vss : Str) (veo : Option Str)
    (hw : w ≠ []) (hwl : ∀ c ∈ w, isAsciiLetter c = true)
    (hch : chs ≠ []) (hchd : ∀ c ∈ chs, isDigitC c = true)
    (hvs : vss ≠ []) (hvsd : ∀ c ∈ vss, isDigitC c = true)
    (hveo : ∀ v, veo = some v → v ≠ [] ∧ ∀ c ∈ v, isDigitC c = true) :
    matchRefCore pre (w ++ ' ' :: (chs ++ ':' :: (vss ++ veTail veo))) =
      some (pre ++ w, chs, vss, veo, []) := by
  have hL1 : spanP isAsciiLetter (w ++ ' ' :: (chs ++ ':' :: (vss ++ veTail veo))) =
      (w, ' ' :: (chs ++ ':' :: (vss ++ veTail veo))) :=
    spanP_split isAsciiLetter w _ hwl (by show isAsciiLetter _ = false; decide)
  have hwsp : spanP isSpaceC (' ' :: (chs ++ ':' :: (vss ++ veTail veo))) =
      ([' '], chs ++ ':' :: (vss ++ veTail veo)) := by
    have := spanP_split isSpaceC [' '] (chs ++ ':' :: (vss ++ veTail veo))
      (by intro c hc; simp at hc; subst hc; decide)
      (headP_of_all_q isSpaceC isDigitC (fun _ h => digit_not_space h) hchd hch _)
    simpa using this
  have hL2 : spanP isAsciiLetter (chs ++ ':' :: (vss ++ veTail veo)) =
      ([], chs ++ ':' :: (vss ++ veTail veo)) := by
    have := spanP_split isAsciiLetter [] (chs ++ ':' :: (vss ++ veTail veo))
      (by intro c hc; simp at hc)
      (headP_of_all_q isAsciiLetter isDigitC (fun _ h => digit_not_letter h) hchd hch _)
    simpa using this
  have hwE : w.isEmpty = false := by
    cases w with
    | nil => exact absurd rfl hw
    | cons a as => rfl
  have hRT := refTail_wellformed chs vss veo hch hchd hvs hvsd hveo
  simp [matchRefCore, hL1, hwsp, hL2, hwE, hRT]

theorem matchRefAt_book (b chs vss : Str) (veo : Option Str)
    (hb : asciiBookShape b = true)
    (hch : chs ≠ []) (hchd : ∀ c ∈ chs, isDigitC c = true)
    (hvs : vss ≠ []) (hvsd : ∀ c ∈ vss, isDigitC c = true)
    (hveo : ∀ v, veo = some v → v ≠ [] ∧ ∀ c ∈ v, isDigitC c = true) :
    matchRefAt (b ++ ' ' :: (chs ++ ':' :: (vss ++ veTail veo))) =
      some (b, chs, vss, veo, []) := by
  cases b with
  | nil => exact absurd hb (by simp [asciiBookShape])
  | cons c cs =>
    by_cases hd : isDigitC c = true
    · simp only [asciiBookShape, hd, if_pos] at hb
      cases cs with
      | nil => exact absurd hb (by simp)
      | cons sp w =>
        simp only [Bool.and_eq_true, beq_iff_eq, Bool.not_eq_true] at hb
        obtain ⟨⟨hsp, hwne⟩, hwl⟩ := hb
        subst hsp
        have hwne2 : w ≠ [] := by
          cases w with
          | nil => simp at hwne
          | cons a as => simp
        have hwsp : spanP isSpaceC
            (' ' :: (w ++ ' ' :: (chs ++ ':' :: (vss ++ veTail veo)))) =
            ([' '], w ++ ' ' :: (chs ++ ':' :: (vss ++ veTail veo))) := by
          have := spanP_split isSpaceC [' ']
            (w ++ ' ' :: (chs ++ ':' :: (vss ++ veTail veo)))
            (by intro x hx; simp at hx; subst hx; decide)
            (headP_of_all_q isSpaceC isAsciiLetter (fun _ h => letter_not_space h)
              (fun x hx => List.all_eq_true.mp hwl x hx) hwne2 _)
          simpa using this
        have hcore := matchRefCore_wellformed (c :: [' ']) w chs vss veo hwne2
          (fun x hx => List.all_eq_true.mp hwl x hx) hch hchd hvs hvsd hveo
        simp [matchRefAt, hd, hwsp, hcore]
    · have hd2 : isDigitC c = false := by simpa using hd
      simp only [asciiBookShape, hd2, Bool.false_eq_true, if_false,
        Bool.and_eq_true, List.all_eq_true] at hb
      have hb2 : ∀ x ∈ c :: cs, isAsciiLetter x = true := by
        intro x hx
        rcases List.mem_cons.mp hx with h | h
        · subst h; exact hb.1
        · exact hb.2 x h
      have hcore := matchRefCore_wellformed [] (c :: cs) chs vss veo
        (by simp) hb2 hch hchd hvs hvsd hveo
      simp [matchRefAt, hd]
      simpa using hcore

theorem refScanGo_nil : ∀ fuel, refScanGo fuel [] = [] := by
  intro fuel
  cases fuel with
  | zero => rfl
  | succ f => rfl

theorem findAllRefs_single (b chs vss : Str) (veo : Option Str)
    (hb : asciiBookShape b = true)
    (hch : chs ≠ []) (hchd : ∀ c ∈ chs, isDigitC c = true)
    (hvs : vss ≠ []) (hvsd : ∀ c ∈ vss, isDigitC c = true)
    (hveo : ∀ v, veo = some v → v ≠ [] ∧ ∀ c ∈ v, isDigitC c = true) :
    findAllRefs (b ++ ' ' :: (chs ++ ':' :: (vss ++ veTail veo))) =
      [(b, chs, vss, veo)] := by
  have hm := matchRefAt_book b chs vss veo hb hch hchd hvs hvsd hveo
  unfold findAllRefs
  cases hs : b ++ ' ' :: (chs ++ ':' :: (vss ++ veTail veo)) with
  | nil =>
    exact absurd hs (by cases b <;> simp)
  | cons x xs =>
    rw [hs] at hm
    simp only [List.length_cons, refScanGo, hm, refScanGo_nil]

theorem natToChars_digits_mem (n : Nat) : ∀ c ∈ natToChars n, isDigitC c = true :=
  fun c hc => List.all_eq_true.mp (natToChars_all_digits n) c hc

theorem intToChars_nonneg {i : Int} (h : 0 ≤ i) :
    intToChars i = natToChars i.toNat := by
  rw [intToChars, if_neg (by omega)]

theorem pyInt_natToChars (n : Nat) : pyInt (natToChars n) = .ok (n : Int) := by
  rw [pyInt_digits (natToChars n) (natToChars_ne_nil n) (natToChars_all_digits n),
    digitsToNat_natToChars]

theorem pyInt_intToChars {i : Int} (h : 0 ≤ i) : pyInt (intToChars i) = .ok i := by
  rw [intToChars_nonneg h, pyInt_natToChars]
  congr 1
  exact Int.toNat_of_nonneg h

theorem shape_no_lt {b : Str} (hb : asciiBookShape b = true) :
    ∀ c ∈ b, c ≠ '<' := by
  cases b with
  | nil => intro c hc; simp at hc
  | cons c cs =>
    by_cases hd : isDigitC c = true
    · simp only [asciiBookShape, hd, if_pos] at hb
      cases cs with
      | nil => simp at hb
      | cons sp w =>
        simp only [Bool.and_eq_true, beq_iff_eq, List.all_eq_true] at hb
        obtain ⟨⟨hsp, _⟩, hwl⟩ := hb
        subst hsp
        intro x hx
        rcases List.mem_cons.mp hx with h | h
        · subst h; exact digit_ne_lt hd
        · rcases List.mem_cons.mp h with h2 | h2
          · subst h2; decide
          · exact letter_ne_lt (hwl x h2)
    · have hd2 : isDigitC c = false := by simpa using hd
      simp only [asciiBookShape, hd2, Bool.false_eq_true, if_false,
        Bool.and_eq_true, List.all_eq_true] at hb
      intro x hx
      rcases List.mem_cons.mp hx with h | h
      · subst h; exact letter_ne_lt hb.1
      · exact letter_ne_lt (hb.2 x h)

theorem lastNotSpace_of_all : ∀ {s : Str},
    (∀ c ∈ s, isSpaceC c = false) → lastNotSpace s = true := by
  intro s
  induction s with
  | nil => intro _; rfl
  | cons c cs ih =>
    intro h
    cases cs with
    | nil => simp [lastNotSpace, h c (by simp)]
    | cons d ds =>
      have := ih (fun x hx => h x (by simp [List.mem_cons.mp hx]))
      simpa [lastNotSpace] using this

theorem shape_strip_id {b : Str} (hb : asciiBookShape b = true) :
    pyStrip b = b := by
  cases b with
  | nil => rfl
  | cons c cs =>
    by_cases hd : isDigitC c = true
    · simp only [asciiBookShape, hd, if_pos] at hb
      cases cs with
      | nil => simp at hb
      | cons sp w =>
        simp only [Bool.and_eq_true, beq_iff_eq, List.all_eq_true,
          Bool.not_eq_true] at hb
        obtain ⟨⟨hsp, hwne⟩, hwl⟩ := hb
        subst hsp
        cases w with
        | nil => simp at hwne
        | cons a as =>
          refine pyStrip_id ?_ ?_
          · simp [headNotSpace, digit_not_space hd]
          · have : lastNotSpace (a :: as) = true :=
              lastNotSpace_of_all (fun x hx => letter_not_space (hwl x hx))
            simpa [lastNotSpace] using this
    · have hd2 : isDigitC c = false := by simpa using hd
      simp only [asciiBookShape, hd2, Bool.false_eq_true, if_false,
        Bool.and_eq_true, List.all_eq_true] at hb
      refine pyStrip_id ?_ ?_
      · simp [headNotSpace, letter_not_space hb.1]
      · exact lastNotSpace_of_all (by
          intro x hx
          rcases List.mem_cons.mp hx with h | h
          · subst h; exact letter_not_space hb.1
          · exact letter_not_space (hb.2 x h))

/-- Every canonical name the reference pattern can consume resolves
back to itself through the `_parse_plain_refs` resolution chain. -/
theorem c6_shape_resolve : ∀ bk ∈ canonTable, asciiBookShape bk.name = true →
    resolve_plain_bookM diathekeToCanonLit aliasMapLit bk.name = bk.name := by
  decide

/-- C6 (amended): for every CrossReference whose book is one of the 56
canonical names built from ASCII letters (optionally with a leading digit
and space), whose chapter and verse are at least 1, and whose verse_end is
absent or strictly greater than verse, formatting via
`CrossReference.reference` and re-extracting with `_parse_plain_refs`
returns exactly that reference.  The ten accented canonical names
(e.g. Daniël) are excluded: the ASCII-only book group of `_REF_PATTERN`
cannot consume them, see the counterexample. -/
theorem crossref_reference_roundtrip (b : Str)
    (hmem : b ∈ canonTable.map CanonBook.name) (hshape : asciiBookShape b = true)
    (ch vs : Int) (hch : 1 ≤ ch) (hvs : 1 ≤ vs) (veo : Option Int)
    (hveo : ∀ ve, veo = some ve → vs < ve) :
    parse_plain_refs (CrossReference.reference ⟨b, ch, vs, veo, []⟩) =
      .ok [⟨b, ch, vs, veo, []⟩] := by
  obtain ⟨bk, hbk, hbname⟩ := List.mem_map.mp hmem
  have hresolve : resolve_plain_bookM diathekeToCanon aliasMap b = b := by
    rw [diathekeToCanon_eq, aliasMap_eq, ← hbname]
    exact c6_shape_resolve bk hbk (by rw [hbname]; exact hshape)
  have hstrip : pyStrip b = b := shape_strip_id hshape
  have hch0 : (ch.toNat : Int) = ch := Int.toNat_of_nonneg (by omega)
  have hvs0 : (vs.toNat : Int) = vs := Int.toNat_of_nonneg (by omega)
  cases veo with
  | none =>
    have href : CrossReference.reference ⟨b, ch, vs, none, []⟩ =
        b ++ ' ' :: (natToChars ch.toNat ++ ':' :: (natToChars vs.toNat ++ veTail none)) := by
      simp [CrossReference.reference, veTail,
        intToChars_nonneg (show (0:Int) ≤ ch by omega),
        intToChars_nonneg (show (0:Int) ≤ vs by omega)]
    have hnolt : ∀ c ∈ b ++ ' ' :: (natToChars ch.toNat ++ ':' ::
        (natToChars vs.toNat ++ veTail none)), c ≠ '<' := by
      intro c hc
      rcases List.mem_append.mp hc with h | h
      · exact shape_no_lt hshape c h
      rcases List.mem_cons.mp h with h | h
      · subst h; decide
      rcases List.mem_append.mp h with h | h
      · exact digit_ne_lt (natToChars_digits_mem _ c h)
      rcases List.mem_cons.mp h with h | h
      · subst h; decide
      rcases List.mem_append.mp h with h | h
      · exact digit_ne_lt (natToChars_digits_mem _ c h)
      · simp [veTail] at h
    have hclean : htmlTagSubSpace (b ++ ' ' :: (natToChars ch.toNat ++ ':' ::
        (natToChars vs.toNat ++ veTail none))) =
        b ++ ' ' :: (natToChars ch.toNat ++ ':' :: (natToChars vs.toNat ++ veTail none)) :=
      tagSubSM_none_id [' '] _ hnolt
    have hfar := findAllRefs_single b (natToChars ch.toNat) (natToChars vs.toNat) none
      hshape (natToChars_ne_nil _) (natToChars_digits_mem _)
      (natToChars_ne_nil _) (natToChars_digits_mem _)
      (by intro v hv; cases hv)
    rw [href, parse_plain_refs, parse_plain_refsM]
    show pprGo diathekeToCanon aliasMap (findAllRefs (htmlTagSubSpace _)) [] = _
    rw [hclean, hfar]
    simp only [pprGo, pyInt_natToChars, hstrip, hresolve, List.any_nil,
      Bool.false_eq_true, if_false, hch0, hvs0]
  | some ve =>
    have hve2 : vs < ve := hveo ve rfl
    have hve0 : (ve.toNat : Int) = ve := Int.toNat_of_nonneg (by omega)
    have href : CrossReference.reference ⟨b, ch, vs, some ve, []⟩ =
        b ++ ' ' :: (natToChars ch.toNat ++ ':' ::
          (natToChars vs.toNat ++ veTail (some (natToChars ve.toNat)))) := by
      simp only [CrossReference.reference]
      rw [if_pos ⟨by omega, by omega⟩]
      simp [veTail, intToChars_nonneg (show (0:Int) ≤ ch by omega),
        intToChars_nonneg (show (0:Int) ≤ vs by omega),
        intToChars_nonneg (show (0:Int) ≤ ve by omega)]
    have hnolt : ∀ c ∈ b ++ ' ' :: (natToChars ch.toNat ++ ':' ::
        (natToChars vs.toNat ++ veTail (some (natToChars ve.toNat)))), c ≠ '<' := by
      intro c hc
      rcases List.mem_append.mp hc with h | h
      · exact shape_no_lt hshape c h
      rcases List.mem_cons.mp h with h | h
      · subst h; decide
      rcases List.mem_append.mp h with h | h
      · exact digit_ne_lt (natToChars_digits_mem _ c h)
      rcases List.mem_cons.mp h with h | h
      · subst h; decide
      rcases List.mem_append.mp h with h | h
      · exact digit_ne_lt (natToChars_digits_mem _ c h)
      simp only [veTail] at h
      rcases List.mem_cons.mp h with h | h
      · subst h; decide
      · exact digit_ne_lt (natToChars_digits_mem _ c h)
    have hclean : htmlTagSubSpace (b ++ ' ' :: (natToChars ch.toNat ++ ':' ::
        (natToChars vs.toNat ++ veTail (some (natToChars ve.toNat))))) =
        b ++ ' ' :: (natToChars ch.toNat ++ ':' ::
          (natToChars vs.toNat ++ veTail (some (natToChars ve.toNat)))) :=
      tagSubSM_none_id [' '] _ hnolt
    have hfar := findAllRefs_single b (natToChars ch.toNat) (natToChars vs.toNat)
      (some (natToChars ve.toNat))
      hshape (natToChars_ne_nil _) (natToChars_digits_mem _)
      (natToChars_ne_nil _) (natToChars_digits_mem _)
      (by
        intro v hv
        injection hv with hv2
        subst hv2
        exact ⟨natToChars_ne_nil _, natToChars_digits_mem _⟩)
    rw [href, parse_plain_refs, parse_plain_refsM]
    show pprGo diathekeToCanon aliasMap (findAllRefs (htmlTagSubSpace _)) [] = _
    rw [hclean, hfar]
    simp only [pprGo, pyInt_natToChars, Except.map, hstrip, hresolve, List.any_nil,
      Bool.false_eq_true, if_false, hch0, hvs0, hve0]

/-- C6 counterexample: the canonical book Daniël falsifies the claimed
roundtrip over all 66 canonical names.  Its accented character is not in
the `[A-Za-z]` book class of `_REF_PATTERN`, so on the formatted string
the scanner only matches the trailing `l`, which the fuzzy alias
resolver turns into Leviticus. -/
theorem crossref_roundtrip_counterexample :
    ¬ (∀ (r : CrossReference), r.book ∈ canonTable.map CanonBook.name →
        1 ≤ r.chapter → 1 ≤ r.verse →
        (∀ ve, r.verse_end = some ve → r.verse ≤ ve) →
        (parse_plain_refs r.reference).map
            (List.map (fun x => (x.book, x.chapter, x.verse, x.verse_end))) =
          .ok [(r.book, r.chapter, r.verse, r.verse_end)]) := by
  intro h
  have h2 := h ⟨lc "Daniël", 1, 1, none, []⟩ (by decide) (by decide) (by decide)
    (by intro ve hve; cases hve)
  rw [parse_plain_refs_lit] at h2
  exact absurd h2 (by decide)

/-- C6 witness: the amended roundtrip applied to Genesis 3:16-19. -/
theorem crossref_reference_roundtrip_witness :
    parse_plain_refs (CrossReference.reference ⟨lc "Genesis", 3, 16, some 19, []⟩) =
      .ok [⟨lc "Genesis", 3, 16, some 19, []⟩] :=
  crossref_reference_roundtrip (lc "Genesis") (by decide) (by decide) 3 16
    (by decide) (by decide) (some 19)
    (by intro ve hve; injection hve with h2; omega)

/-- Split on every comma (`str` split step of `re.split`). -/
def splitComma : Str → List Str
  | [] => [[]]
  | c :: cs =>
    match splitComma cs with
    | [] => [[c]]
    | p :: ps => if beqC c ',' then [] :: p :: ps else (c :: p) :: ps

/-- `re.split(r",\s*", s)`: cut at each comma and drop the whitespace
run that follows it (the run never contains a comma, so cutting first
and left-stripping the later pieces is the same split). -/
def splitCommaWS (s : Str) : List Str :=
  match splitComma s with
  | [] => []
  | p :: ps => p :: ps.map (List.dropWhile isSpaceC)

/-- Python `str.rstrip(".")`. -/
def dropTrailingDots : Str → Str
  | [] => []
  | c :: cs =>
    let r := dropTrailingDots cs
    if r.isEmpty && beqC c '.' then [] else c :: r

/-- Tail of `_SIMPLE_REF` after group 1: `\s*(\d+):(\d+)(?:-(\d+))?`
(digit runs are maximal, so the only regex choice point is the optional
range group, dropped when no digits follow the dash). -/
def simpleRefTail (s2 : Str) : Option (Str × Str × Option Str × Str) :=
  let w := spanP isSpaceC s2
  let ch := spanP isDigitC w.2
  if ch.1.isEmpty then none else
  match ch.2 with
  | c :: s3 =>
    if beqC c ':' then
      let vs := spanP isDigitC s3
      if vs.1.isEmpty then none else
      match vs.2 with
      | d :: s4 =>
        if beqC d '-' then
          let ve := spanP isDigitC s4
          if ve.1.isEmpty then some (ch.1, vs.1, none, vs.2)
          else some (ch.1, vs.1, some ve.1, ve.2)
        else some (ch.1, vs.1, none, vs.2)
      | [] => some (ch.1, vs.1, none, vs.2)
    else none
  | [] => none

/-- Group 1 of `_SIMPLE_REF` after the optional digit: `\s*[A-Za-z]+\.?`
followed by the tail.  `g1pre` holds the digit when one was consumed. -/
def simpleRefCore (g1pre s1 : Str) : Option (Str × Str × Str × Option Str × Str) :=
  let w := spanP isSpaceC s1
  let L := spanP isAsciiLetter w.2
  if L.1.isEmpty then none else
  let dotRest : Str × Str :=
    match L.2 with
    | c :: r => if beqC c '.' then ([c], r) else ([], c :: r)
    | [] => ([], [])
  match simpleRefTail dotRest.2 with
  | some (chs, vss, veo, rest) =>
    some (g1pre ++ w.1 ++ L.1 ++ dotRest.1, chs, vss, veo, rest)
  | none => none

/-- Anchored match of `_SIMPLE_REF =
(\d?\s*[A-Za-z]+\.?)\s*(\d+):(\d+)(?:-(\d+))?`: the leading `\d?` is
tried greedily first and given up if the rest fails there. -/
def simpleRefAt : Str → Option (Str × Str × Str × Option Str × Str)
  | [] => none
  | c :: cs =>
    if isDigitC c then
      match simpleRefCore [c] cs with
      | some r => some r
      | none => simpleRefCore [] (c :: cs)
    else simpleRefCore [] (c :: cs)

/-- `_SIMPLE_REF.search`: first position with a match. -/
def simpleRefSearchGo : Nat → Str → Option (Str × Str × Str × Option Str × Str)
  | 0, _ => none
  | fuel + 1, s =>
    match s with
    | [] => none
    | c :: cs =>
      match simpleRefAt (c :: cs) with
      | some r => some r
      | none => simpleRefSearchGo fuel cs

def simpleRefSearch (s : Str) : Option (Str × Str × Str × Option Str × Str) :=
  simpleRefSearchGo s.length s

/-- `_SIMPLE_REF.finditer`. -/
def simpleRefScanGo : Nat → Str → List (Str × Str × Str × Option Str)
  | 0, _ => []
  | fuel + 1, s =>
    match s with
    | [] => []
    | c :: cs =>
      match simpleRefAt (c :: cs) with
      | some (g1, chs, vss, veo, rest) => (g1, chs, vss, veo) :: simpleRefScanGo fuel rest
      | none => simpleRefScanGo fuel cs

def simpleRefFindAll (s : Str) : List (Str × Str × Str × Option Str) :=
  simpleRefScanGo s.length s

/-- Python `s.replace(".", "").replace(" ", "")`. -/
def removeDotsSpaces (s : Str) : Str :=
  s.filter (fun c => !(beqC c '.') && !(beqC c ' '))

/-- Case-insensitive first hit of the `_BOOK_ABBREVS` items loop in
`_resolve_book`. -/
def lookupLowerEq : List (Str × Str) → Str → Option Str
  | [], _ => none
  | (k, v) :: rest, sc =>
    if beqStr (pyLower k) (pyLower sc) then some v else lookupLowerEq rest sc

/-- `CommentaryBackend._resolve_book`: abbreviation table on the
dot/space-stripped name, spaced variant for numbered books, alias
resolver, engine-token reverse table.  `raw[0]` on an empty name is a
Python IndexError. -/
def resolve_bookM (dmap amap : List (Str × Str)) (raw : Str) :
    Except PyErr (Option Str) :=
  let clean := removeDotsSpaces raw
  match dictGet bookAbbrevs clean with
  | some b => .ok (some b)
  | none =>
    match raw with
    | [] => .error .indexError
    | c :: cs =>
      let viaSpaced : Option Str :=
        if isDigitC c then
          let spaced := c :: ' ' :: cs.dropWhile isSpaceC
          lookupLowerEq bookAbbrevs (spaced.filter (fun x => !(beqC x '.')))
        else none
      match viaSpaced with
      | some b => .ok (some b)
      | none =>
        match resolve_alias_core amap raw true with
        | some b => .ok (some b)
        | none =>
          match dictGet dmap raw with
          | some b => .ok (some b)
          | none => .ok none

/-- Python truthiness of the loop state `current_book and current_chapter`
in `_parse_passage`. -/
def truthyBookChapter : Option Str → Option Int → Bool
  | some b, some c => !b.isEmpty && !(c = 0)
  | _, _ => false

/-- Loop body of `CommentaryBackend._parse_passage` over the
comma-separated pieces, carrying `current_book`/`current_chapter`. -/
def ppGo (dmap amap : List (Str × Str)) :
    List Str → Option Str → Option Int → Except PyErr (List CrossReference)
  | [], _, _ => .ok []
  | part :: rest, cb, cc =>
    let p := pyStrip part
    if p.isEmpty then ppGo dmap amap rest cb cc
    else
      match simpleRefSearch p with
      | some (g1, chs, vss, veo, _) =>
        match pyInt chs with
        | .error e => .error e
        | .ok ch =>
        match pyInt vss with
        | .error e => .error e
        | .ok vs =>
        match (match veo with
               | some ves => (pyInt ves).map some
               | none => .ok (none : Option Int)) with
        | .error e => .error e
        | .ok ve =>
          let raw := dropTrailingDots (pyStrip g1)
          match resolve_bookM dmap amap raw with
          | .error e => .error e
          | .ok (some book) =>
            match ppGo dmap amap rest (some book) (some ch) with
            | .error e => .error e
            | .ok refs => .ok (⟨book, ch, vs, ve, []⟩ :: refs)
          | .ok none => ppGo dmap amap rest cb cc
      | none =>
        if truthyBookChapter cb cc then
          match cb, cc with
          | some book, some chap =>
            let ds := spanP isDigitC p
            if ds.1.isEmpty then ppGo dmap amap rest cb cc
            else
              match pyInt ds.1 with
              | .error e => .error e
              | .ok vs =>
              match ((match ds.2 with
                     | d :: s4 =>
                       if beqC d '-' then
                         let ve := spanP isDigitC s4
                         if ve.1.isEmpty then Except.ok none
                         else (pyInt ve.1).map some
                       else Except.ok none
                     | [] => Except.ok none) : Except PyErr (Option Int)) with
              | .error e => .error e
              | .ok ve =>
                match ppGo dmap amap rest cb cc with
                | .error e => .error e
                | .ok refs => .ok (⟨book, chap, vs, ve, []⟩ :: refs)
          | _, _ => ppGo dmap amap rest cb cc
        else ppGo dmap amap rest cb cc

/-- `CommentaryBackend._parse_passage`. -/
def parse_passageM (dmap amap : List (Str × Str)) (passage : Str) :
    Except PyErr (List CrossReference) :=
  ppGo dmap amap (splitCommaWS passage) none none

def parse_passage (passage : Str) : Except PyErr (List CrossReference) :=
  parse_passageM diathekeToCanon aliasMap passage

theorem parse_passage_lit (s : Str) :
    parse_passage s = parse_passageM diathekeToCanonLit aliasMapLit s := by
  rw [parse_passage, diathekeToCanon_eq, aliasMap_eq]

/-- Emit loop of `CommentaryBackend._parse_simple_refs` over the
`_SIMPLE_REF.finditer` matches. -/
def psrGo (dmap amap : List (Str × Str)) :
    List (Str × Str × Str × Option Str) → Except PyErr (List CrossReference)
  | [] => .ok []
  | (g1, chs, vss, veo) :: ms =>
    match pyInt chs with
    | .error e => .error e
    | .ok ch =>
    match pyInt vss with
    | .error e => .error e
    | .ok vs =>
    match (match veo with
           | some ves => (pyInt ves).map some
           | none => .ok (none : Option Int)) with
    | .error e => .error e
    | .ok ve =>
      let raw := dropTrailingDots (pyStrip g1)
      match resolve_bookM dmap amap raw with
      | .error e => .error e
      | .ok (some book) =>
        match psrGo dmap amap ms with
        | .error e => .error e
        | .ok refs => .ok (⟨book, ch, vs, ve, []⟩ :: refs)
      | .ok none => psrGo dmap amap ms

/-- `CommentaryBackend._parse_simple_refs`. -/
def parse_simple_refsM (dmap amap : List (Str × Str)) (text : Str) :
    Except PyErr (List CrossReference) :=
  psrGo dmap amap (simpleRefFindAll text)

/-- Chapter/verse step of `_parse_passage_string` (the
`re.match(r"(\d+)\s*(\d+)?", part)` block): returns the reference to
append, if any, and the updated `current_chapter`.  The `int()` calls
are on plain digit runs and cannot raise. -/
def cvStep (amap : List (Str × Str)) (part : Str) (cb : Option Str)
    (cc : Option Int) : Option CrossReference × Option Int :=
  match cb with
  | none => (none, cc)
  | some book =>
    if book.isEmpty then (none, cc)
    else
      let ds1 := spanP isDigitC part
      if ds1.1.isEmpty then (none, cc)
      else
        let w := spanP isSpaceC ds1.2
        let ds2 := spanP isDigitC w.2
        let num1 := (digitsToNat ds1.1 : Int)
        let canonical := (resolve_alias_core amap book true).getD book
        if !ds2.1.isEmpty then
          (some ⟨canonical, num1, (digitsToNat ds2.1 : Int), none, []⟩, some num1)
        else
          match cc with
          | some chap =>
            if chap = 0 then (none, some num1)
            else (some ⟨canonical, chap, num1, none, []⟩, cc)
          | none => (none, some num1)

/-- Loop body of `CrossRefBackend._parse_passage_string` over the
whitespace-separated tokens of the dot/colon-normalized passage. -/
def ppsGo (amap : List (Str × Str)) :
    List Str → Option Str → Option Int → List CrossReference
  | [], _, _ => []
  | part :: rest, cb, cc =>
    if (dictGet bookAbbrevs part).isSome ||
        (resolve_alias_core amap part true).isSome then
      ppsGo amap rest (some ((dictGet bookAbbrevs part).getD part)) cc
    else
      match rest with
      | np :: rest2 =>
        if beqStr part (lc "1") || beqStr part (lc "2") || beqStr part (lc "3") then
          if (dictGet bookAbbrevs (part ++ np)).isSome then
            ppsGo amap rest2 (dictGet bookAbbrevs (part ++ np)) cc
          else if (resolve_alias_core amap (part ++ ' ' :: np) true).isSome then
            ppsGo amap rest2 (some (part ++ ' ' :: np)) cc
          else
            match cvStep amap part cb cc with
            | (some r, cc2) => r :: ppsGo amap (np :: rest2) cb cc2
            | (none, cc2) => ppsGo amap (np :: rest2) cb cc2
        else
          match cvStep amap part cb cc with
          | (some r, cc2) => r :: ppsGo amap (np :: rest2) cb cc2
          | (none, cc2) => ppsGo amap (np :: rest2) cb cc2
      | [] =>
        match cvStep amap part cb cc with
        | (some r, cc2) => r :: ppsGo amap [] cb cc2
        | (none, cc2) => ppsGo amap [] cb cc2

/-- `CrossRefBackend._parse_passage_string`: dots and colons become
spaces, whitespace is collapsed and stripped, then the token loop runs. -/
def parse_passage_stringM (amap : List (Str × Str)) (passage : Str) :
    List CrossReference :=
  let norm := pyStrip (collapseWS (passage.map (fun c =>
    if beqC c '.' || beqC c ':' then ' ' else c)))
  ppsGo amap (splitWS norm) none none

def parse_passage_string (passage : Str) : List CrossReference :=
  parse_passage_stringM aliasMap passage

theorem parse_passage_string_lit (s : Str) :
    parse_passage_string s = parse_passage_stringM aliasMapLit s := by
  rw [parse_passage_string, aliasMap_eq]

end SwordTui
